import Mathlib

/-!
# resumeio2pdf: a shallow embedding of `main.go`

The program resolves a resume identifier from its command line, fetches the
metadata of the resume, acquires one image per page (re-using files that are
already on disk), composes a PDF with link overlays and removes the images.

Modelling decisions.

* Go strings are Lean strings; the regular expressions of the program are
  written out as Boolean matchers on the list of characters.
* `float64` is an arbitrary type `R` with a subtraction and a zero: the only
  arithmetic of the program is `pageSize.H - link.Top - link.Height`, kept as
  that left-nested subtraction.
* The filesystem is a map from paths to contents. `os.Stat` fails with an
  error other than "not exist" (a component that is not a directory, a name
  that is too long, a missing permission) on the paths given by the oracle
  `statErr`; on the others it reports "not exist" exactly for the paths
  without an entry.
* Everything outside the program (clock, HTTP transport, file creation and
  removal errors, JSON decoding, the `gopdf` library) is an oracle of the
  environment `Env`; the calls made on the `gopdf` document are recorded.
* Every observable effect is appended to the trace of the `World`.
* Logging (`logger`, `loggerf`, `fmt.Printf`) is not modelled.
-/

namespace Resumeio2pdf

/-! ## Constants -/

/-- The format `resumePage = "https://resume.io/r/%s"` applied to its argument. -/
def resumePage (s : String) : String := "https://resume.io/r/" ++ s

/-- The format `resumeMeta = "https://ssr.resume.tools/meta/ssid-%s"` applied. -/
def resumeMeta (s : String) : String := "https://ssr.resume.tools/meta/ssid-" ++ s

/-- The constant `resumeExt`. -/
def resumeExt : String := "png"

/-- The constant `resumeSize`. -/
def resumeSize : Nat := 1800

/-- The format `resumeIMG` applied to identifier, page number, extension,
cache-busting timestamp and size; `%d` of a non-negative integer is its
decimal rendering. -/
def resumeIMG (s : String) (pID : Nat) (ext cache : String) (size : Nat) : String :=
  "https://ssr.resume.tools/to-image/ssid-" ++ s ++ "-" ++ Nat.repr pID ++ "." ++ ext
    ++ "?cache=" ++ cache ++ "&size=" ++ Nat.repr size

/-- The constant `exitCodeMisuseArgs`. -/
def exitCodeMisuseArgs : Nat := 2

/-! ## Regular expressions -/

/-- Removes the literal `p` from the front of `s`, if `s` starts with it. -/
def dropLead : List Char → List Char → Option (List Char)
  | [], s => some s
  | _ :: _, [] => none
  | a :: p, b :: s => if a = b then dropLead p s else none

/-- The matcher of `reSID`, the pattern `^[[:alnum:]]+$`. -/
def reSID (s : String) : Bool := !s.data.isEmpty && s.data.all Char.isAlphanum

/-- The matcher of `reID`, the pattern `^\d+$`. -/
def reID (s : String) : Bool := !s.data.isEmpty && s.data.all Char.isDigit

/-- The first submatch of `reURL`, the pattern
`^https://resume[.]io/r/([[:alnum:]]+)`: the longest alphanumeric run after
the literal, which has to be non-empty. -/
def reURLFind (s : String) : Option String :=
  match dropLead "https://resume.io/r/".data s.data with
  | none => none
  | some rest =>
    if (rest.takeWhile Char.isAlphanum).isEmpty then none
    else some ⟨rest.takeWhile Char.isAlphanum⟩

/-- The matcher of `reURL`. -/
def reURL (s : String) : Bool := (reURLFind s).isSome

/-- Matches `.*?/\d+` at the start of the input: some `/` followed by a digit,
with no newline before it (`.` does not match a newline). -/
def idTail : List Char → Bool
  | [] => false
  | c :: rest =>
    (c == '/' && (match rest with
      | d :: _ => d.isDigit
      | [] => false))
    || (c != '\n' && idTail rest)

/-- The matcher of `reIDURL`, the pattern
`^https://resume[.]io/(?:app|api)/.*?/(\d+)`. -/
def reIDURL (s : String) : Bool :=
  match dropLead "https://resume.io/".data s.data with
  | none => false
  | some r =>
    match dropLead "app/".data r with
    | some t => idTail t
    | none =>
      match dropLead "api/".data r with
      | some t => idTail t
      | none => false

/-- The matcher of `rePDF`, the pattern `(?i)[.]pdf$`. -/
def rePDF (s : String) : Bool :=
  match s.data.reverse with
  | f :: d :: p :: dot :: _ =>
    dot == '.' && p.toLower == 'p' && d.toLower == 'd' && f.toLower == 'f'
  | _ => false

/-! ## Data model -/

/-- The struct `metaLink`. -/
structure metaLink (R : Type) where
  URL : String
  Left : R
  Top : R
  Height : R
  Width : R
deriving DecidableEq, Repr

/-- The struct `metaViewPort`. -/
structure metaViewPort (R : Type) where
  Height : R
  Width : R
deriving DecidableEq, Repr

/-- The struct `metaPageInfo`. -/
structure metaPageInfo (R : Type) where
  Links : List (metaLink R)
  ViewPort : metaViewPort R
deriving DecidableEq, Repr

/-- The struct `metaInfo`. -/
structure metaInfo (R : Type) where
  Pages : List (metaPageInfo R)
deriving DecidableEq, Repr

/-- The flag variables of the program after `flag.Parse`, with the first
positional argument (`flag.Arg(0)`, empty when absent). -/
structure Flags where
  url : String
  sid : String
  showVersion : Bool
  verbose : Bool
  overWrite : Bool
  pdfFileName : String
  arg0 : String
deriving DecidableEq, Repr

/-! ## The world outside the program -/

/-- Paths mapped to file contents. -/
abbrev FS := String → Option (List Nat)

/-- The observable effects of a run. -/
inductive Effect where
  | stat (path : String)
  | get (url : String)
  | create (path : String)
  | copy (path : String) (bytes : List Nat)
  | remove (path : String)
  | writePdf (path : String)
deriving DecidableEq, Repr

/-- The filesystem and the effects so far, oldest first. -/
structure World where
  fs : FS
  trace : List Effect

/-- Appends one effect to the trace. -/
def World.record (w : World) (e : Effect) : World :=
  { w with trace := w.trace ++ [e] }

/-- The outcome of `httpClient.Get`: a transport error, or a response with its
status code, status text and body; `bodyErr = some (n, e)` says that reading
the body fails with `e` after `n` bytes. -/
inductive HttpResult where
  | error (err : String)
  | response (statusCode : Nat) (status : String) (body : List Nat)
      (bodyErr : Option (Nat × String))
deriving DecidableEq, Repr

/-- The struct `gopdf.Rect`. -/
structure Rect (R : Type) where
  W : R
  H : R
deriving DecidableEq, Repr

/-- The calls the program makes on its `gopdf.GoPdf` document. -/
inductive PdfCall (R : Type) where
  | Start (pageSize : Rect R)
  | AddPageWithOption (pageSize : Rect R)
  | Image (picPath : String) (x y : R) (rect : Rect R)
  | AddExternalLink (url : String) (x y w h : R)
  | WritePdf (path : String)
deriving DecidableEq, Repr

/-- The oracles of a run. `now n` is the RFC 3339 rendering of the clock and
`httpGet n` the transport when `n` effects have happened; `statErr` holds of
the paths on which `os.Stat` fails with an error other than "not exist";
`create`, `remove` and `image` give the error, if any, of `os.Create`,
`os.Remove` and `pdf.Image`; `decode` is the JSON decoder applied to the bytes
read and the read error; `writePdf` gives the error and the filesystem after
`pdf.WritePdf`. -/
structure Env (R : Type) where
  now : Nat → String
  statErr : String → Bool
  httpGet : Nat → String → HttpResult
  create : String → FS → Option String
  remove : String → FS → Option String
  decode : List Nat → Option String → Except String (metaInfo R)
  image : String → FS → Option String
  writePdf : List (PdfCall R) → String → FS → Option String × FS

/-- How the process ends: normally, by `os.Exit`, by `log.Fatalln`, or by a
run-time panic. -/
inductive Exit where
  | ok
  | code (n : Nat)
  | fatal (err : String)
  | panicked
deriving DecidableEq, Repr

/-- How `generatePDF` ends: `nil`, an error, or an index-out-of-range panic. -/
inductive GenOutcome where
  | ok
  | err (e : String)
  | panicked
deriving DecidableEq, Repr

/-- The test `_, err := os.Stat(path); os.IsNotExist(err)`: the call fails,
and with the error "not exist". -/
def isNotExist {R : Type} (env : Env R) (path : String) (fs : FS) : Bool :=
  !env.statErr path && (fs path).isNone

/-! ## Argument resolution -/

/-- The function `extractArg`. -/
def extractArg (f : Flags) : Bool × Flags :=
  if f.arg0 = "" then (true, f)
  else if reID f.arg0 then (false, f)
  else if reIDURL f.arg0 then (false, f)
  else if reSID f.arg0 then (true, { f with sid := f.arg0 })
  else if reURL f.arg0 then (true, { f with url := f.arg0 })
  else (true, f)

/-- The function `readFlags`, on the parsed flags: the result, the flag
variables afterwards, and the world after the `os.Stat` of the output path. -/
def readFlags {R : Type} (env : Env R) (f0 : Flags) (w : World) : Bool × Flags × World :=
  if f0.showVersion then (false, f0, w)
  else
    let f1 := (extractArg f0).2
    if (extractArg f0).1 = false then (false, f1, w)
    else if f1.sid = "" ∧ f1.url = "" then (false, f1, w)
    else if f1.sid ≠ "" ∧ reSID f1.sid = false then (false, f1, w)
    else
      let f2 : Flags := if f1.sid ≠ "" then { f1 with url := resumePage f1.sid } else f1
      if reIDURL f2.url then (false, f2, w)
      else if reURL f2.url = false then (false, f2, w)
      else
        let f3 : Flags :=
          if f2.sid = "" then { f2 with sid := (reURLFind f2.url).getD "" } else f2
        let f4 : Flags :=
          if f3.pdfFileName = "" then { f3 with pdfFileName := f3.sid ++ ".pdf" } else f3
        let f5 : Flags :=
          if rePDF f4.pdfFileName = false then
            { f4 with pdfFileName := f4.pdfFileName ++ ".pdf" }
          else f4
        let w1 := w.record (.stat f5.pdfFileName)
        if f5.overWrite = false ∧ isNotExist env f5.pdfFileName w.fs = false then
          (false, f5, w1)
        else (true, f5, w1)

/-! ## Image acquisition -/

/-- The function `downloadPage`. -/
def downloadPage {R : Type} (env : Env R) (imgURL imgFile : String) (w : World) :
    Option String × World :=
  let w1 := w.record (.get imgURL)
  match env.httpGet w.trace.length imgURL with
  | .error err => (some err, w1)
  | .response statusCode status body bodyErr =>
    if statusCode ≠ 200 then (some status, w1)
    else
      let w2 := w1.record (.create imgFile)
      match env.create imgFile w.fs with
      | some err => (some err, w2)
      | none =>
        match bodyErr with
        | some (n, err) =>
          (some err, ⟨Function.update w.fs imgFile (some (body.take n)),
            w2.trace ++ [.copy imgFile (body.take n)]⟩)
        | none =>
          (none, ⟨Function.update w.fs imgFile (some body),
            w2.trace ++ [.copy imgFile body]⟩)

/-- The name of the image file of page `pID`, the format `"%s-%d.%s"` applied
to the identifier, the page number and `resumeExt`. -/
def pageFile (s : String) (pID : Nat) : String :=
  s ++ "-" ++ Nat.repr pID ++ "." ++ resumeExt

/-- The loop of `getResumeImages`: `n` is the number of iterations left
(`p + 1 - pID`), `pages` the slice built so far. -/
def getResumeImagesLoop {R : Type} (env : Env R) (s : String) :
    Nat → Nat → List String → World → List String × Option String × World
  | 0, _, pages, w => (pages, none, w)
  | n + 1, pID, pages, w =>
    let w1 := w.record (.stat (pageFile s pID))
    if isNotExist env (pageFile s pID) w.fs then
      let imgURL := resumeIMG s pID resumeExt (env.now w1.trace.length) resumeSize
      match downloadPage env imgURL (pageFile s pID) w1 with
      | (some err, w2) => (pages, some err, w2)
      | (none, w2) => getResumeImagesLoop env s n (pID + 1) (pages ++ [pageFile s pID]) w2
    else getResumeImagesLoop env s n (pID + 1) (pages ++ [pageFile s pID]) w1

/-- The function `getResumeImages`: the pages, the error and the world. -/
def getResumeImages {R : Type} (env : Env R) (s : String) (p : Int) (w : World) :
    List String × Option String × World :=
  if p < 1 then ([], some "required one or more pages", w)
  else getResumeImagesLoop env s p.toNat 1 [] w

/-- The function `cleanup`. -/
def cleanup {R : Type} (env : Env R) : List String → World → World
  | [], w => w
  | file :: rest, w =>
    let w1 := w.record (.stat file)
    if isNotExist env file w.fs then cleanup env rest w1
    else
      match env.remove file w.fs with
      | some _ => cleanup env rest (w1.record (.remove file))
      | none =>
        cleanup env rest ⟨Function.update w.fs file none, w1.trace ++ [.remove file]⟩

/-! ## Metadata -/

/-- The function `getJSON`, with `metaInfo` as the target. -/
def getJSON {R : Type} (env : Env R) (url : String) (w : World) :
    Except String (metaInfo R) × World :=
  let w1 := w.record (.get url)
  match env.httpGet w.trace.length url with
  | .error err => (.error err, w1)
  | .response statusCode status body bodyErr =>
    if statusCode ≠ 200 then
      (.error ("Can't download information from the site resume.io. Please, check URL.\n\nError: "
        ++ status), w1)
    else
      match bodyErr with
      | some (n, err) => (env.decode (body.take n) (some err), w1)
      | none => (env.decode body none, w1)

/-- The function `getMeta`. -/
def getMeta {R : Type} (env : Env R) (s : String) (w : World) :
    Except String (metaInfo R) × World :=
  getJSON env (resumeMeta s) w

/-! ## PDF composition -/

/-- The loop over the links of one page: one `AddExternalLink` per link. -/
def addLinks {R : Type} [Sub R] (pageSize : Rect R) :
    List (metaLink R) → List (PdfCall R) → List (PdfCall R)
  | [], pdf => pdf
  | link :: rest, pdf =>
    let x := link.Left
    let y := pageSize.H - link.Top - link.Height
    addLinks pageSize rest (pdf ++ [.AddExternalLink link.URL x y link.Width link.Height])

/-- The loop of `generatePDF` over the images, `i` being the index of the
first image of the list and `pdf` the calls made so far. -/
def generatePDFLoop {R : Type} [Sub R] [Zero R] (env : Env R) (info : metaInfo R) (fs : FS) :
    List String → Nat → List (PdfCall R) → GenOutcome × List (PdfCall R)
  | [], _, pdf => (.ok, pdf)
  | image :: rest, i, pdf =>
    match info.Pages[i]? with
    | none => (.panicked, pdf)
    | some page =>
      let pageSize : Rect R := ⟨page.ViewPort.Width, page.ViewPort.Height⟩
      let pdf1 := pdf ++ [.AddPageWithOption pageSize]
      let pdf2 := pdf1 ++ [.Image image 0 0 pageSize]
      match env.image image fs with
      | some err => (.err err, pdf2)
      | none => generatePDFLoop env info fs rest (i + 1) (addLinks pageSize page.Links pdf2)

/-- The function `generatePDF`: the outcome, the world and the calls made on
the document. -/
def generatePDF {R : Type} [Sub R] [Zero R] (env : Env R) (pdfFileName : String)
    (info : metaInfo R) (images : List String) (w : World) :
    GenOutcome × World × List (PdfCall R) :=
  match info.Pages[0]? with
  | none => (.panicked, w, [])
  | some first =>
    let pageSize : Rect R := ⟨first.ViewPort.Width, first.ViewPort.Height⟩
    match generatePDFLoop env info w.fs images 0 [.Start pageSize] with
    | (.ok, pdf) =>
      let pdf1 := pdf ++ [.WritePdf pdfFileName]
      let r := env.writePdf pdf pdfFileName w.fs
      match r.1 with
      | some err => (.err err, ⟨r.2, w.trace ++ [.writePdf pdfFileName]⟩, pdf1)
      | none => (.ok, ⟨r.2, w.trace ++ [.writePdf pdfFileName]⟩, pdf1)
    | (out, pdf) => (out, w, pdf)

/-! ## The pipeline -/

/-- The function `main`: how the process ends, the world at that point and the
calls made on the PDF document. -/
def main {R : Type} [Sub R] [Zero R] (env : Env R) (f : Flags) (w : World) :
    Exit × World × List (PdfCall R) :=
  if (readFlags env f w).1 = false ∨ (readFlags env f w).2.1.sid = "" then
    (.code exitCodeMisuseArgs, (readFlags env f w).2.2, [])
  else
    match getMeta env (readFlags env f w).2.1.sid (readFlags env f w).2.2 with
    | (.error err, w1) => (.fatal err, w1, [])
    | (.ok info, w1) =>
      match getResumeImages env (readFlags env f w).2.1.sid info.Pages.length w1 with
      | (_, some err, w2) => (.fatal err, w2, [])
      | (images, none, w2) =>
        match generatePDF env (readFlags env f w).2.1.pdfFileName info images w2 with
        | (.err err, w3, pdf) => (.fatal err, w3, pdf)
        | (.panicked, w3, pdf) => (.panicked, w3, pdf)
        | (.ok, w3, pdf) => (.ok, cleanup env images w3, pdf)

/-! ## Reading the recorded calls as a document -/

/-- A link annotation: target and rectangle. -/
structure Annot (R : Type) where
  url : String
  x : R
  y : R
  w : R
  h : R
deriving DecidableEq, Repr

/-- A page of the document: its size, the images placed on it and its link
annotations, in call order. -/
structure PdfPage (R : Type) where
  size : Rect R
  images : List String
  links : List (Annot R)
deriving DecidableEq, Repr

/-- The images placed before the next page is opened. -/
def imagesHere {R : Type} : List (PdfCall R) → List String
  | [] => []
  | .AddPageWithOption _ :: _ => []
  | .Image picPath _ _ _ :: rest => picPath :: imagesHere rest
  | _ :: rest => imagesHere rest

/-- The links registered before the next page is opened. -/
def linksHere {R : Type} : List (PdfCall R) → List (Annot R)
  | [] => []
  | .AddPageWithOption _ :: _ => []
  | .AddExternalLink url x y w h :: rest => ⟨url, x, y, w, h⟩ :: linksHere rest
  | _ :: rest => linksHere rest

/-- The pages of the document: `AddPageWithOption` opens a page, and the
images and links of the calls up to the next one go onto it. -/
def pdfPages {R : Type} : List (PdfCall R) → List (PdfPage R)
  | [] => []
  | .AddPageWithOption size :: rest =>
    ⟨size, imagesHere rest, linksHere rest⟩ :: pdfPages rest
  | _ :: rest => pdfPages rest

/-- All link annotations registered by a sequence of calls. -/
def allLinks {R : Type} : List (PdfCall R) → List (Annot R)
  | [] => []
  | .AddExternalLink url x y w h :: rest => ⟨url, x, y, w, h⟩ :: allLinks rest
  | _ :: rest => allLinks rest

/-! ## Definitions used to state the properties -/

/-- The output name after lines 285 to 292 of `readFlags`, as a function of
the resolved identifier and the value of the `-pdf` flag. -/
def pdfNameOf (s n : String) : String :=
  if rePDF (if n = "" then s ++ ".pdf" else n) = false then
    (if n = "" then s ++ ".pdf" else n) ++ ".pdf"
  else (if n = "" then s ++ ".pdf" else n)

/-- The wording of the specification: the name ends with `.pdf`, each of the
three letters in either case. -/
def endsWithPdfAnyCase (s : String) : Bool :=
  match s.data.reverse with
  | c :: b :: a :: dot :: _ =>
    decide (dot = '.' ∧ (a = 'p' ∨ a = 'P') ∧ (b = 'd' ∨ b = 'D') ∧ (c = 'f' ∨ c = 'F'))
  | _ => false

/-- The wording of the specification for the output path: the default
`sid ++ ".pdf"` for an empty name, the name itself when it already ends with
`.pdf` in any letter case, and the name suffixed with `.pdf` otherwise. -/
def outputPath (s n : String) : String :=
  if n = "" then s ++ ".pdf"
  else if endsWithPdfAnyCase n then n
  else n ++ ".pdf"

/-- A file name without a path separator that is not the component `..`. -/
def safeFileName (s : String) : Bool :=
  s.data.all (fun c => c != '/' && c != '\\') && s != ".."

/-- The number written by a list of decimal digits. -/
def digitsValue (l : List Char) : Nat := l.foldl (fun a c => 10 * a + (c.toNat - 48)) 0

/-- The paths checked with `os.Stat`, in order. -/
def statPaths : List Effect → List String
  | [] => []
  | .stat path :: rest => path :: statPaths rest
  | _ :: rest => statPaths rest

/-- The `AddExternalLink` calls for the links of a page of the given size. -/
def linkCalls {R : Type} [Sub R] (pageSize : Rect R) (links : List (metaLink R)) :
    List (PdfCall R) :=
  links.map (fun link => PdfCall.AddExternalLink link.URL link.Left
    (pageSize.H - link.Top - link.Height) link.Width link.Height)

/-- The metadata of the scenario of the specification: one page of 800 by
1200 with one link. -/
def scenarioInfo : metaInfo Int :=
  ⟨[{ Links := [{ URL := "https://x.test", Left := 0, Top := 0, Height := 50, Width := 100 }],
      ViewPort := { Height := 1200, Width := 800 } }]⟩

/-- Metadata with two pages and no links. -/
def twoPages : metaInfo Int :=
  ⟨[{ Links := [], ViewPort := { Height := 1200, Width := 800 } },
    { Links := [], ViewPort := { Height := 1000, Width := 700 } }]⟩

/-- A world in which the images of both pages of `abc` are on disk. -/
def cachedWorld : World :=
  ⟨fun path => if path = "abc-1.png" ∨ path = "abc-2.png" then some [0] else none, []⟩

/-- The effects of image acquisition: cache checks, requests, and the
creation and writing of a file. -/
def Effect.acquires : Effect → Bool
  | .stat _ => true
  | .get _ => true
  | .create _ => true
  | .copy _ _ => true
  | _ => false

/-- An environment in which the body `[1, 2, 3]` of every response breaks off
after one byte, and nothing else fails. -/
def truncatingEnv : Env Int where
  now := fun _ => "2021-01-01T00:00:00Z"
  statErr := fun _ => false
  httpGet := fun _ _ => .response 200 "200 OK" [1, 2, 3] (some (1, "unexpected EOF"))
  create := fun _ _ => none
  remove := fun _ _ => none
  decode := fun _ _ => .ok ⟨[]⟩
  image := fun _ _ => none
  writePdf := fun _ _ fs => (none, fs)

/-- An environment in which `pdf.Image` rejects the file `abc-1.png` and
nothing else fails. -/
def corruptImageEnv : Env Int where
  now := fun _ => "2021-01-01T00:00:00Z"
  statErr := fun _ => false
  httpGet := fun _ _ => .response 200 "200 OK" [1, 2, 3] none
  create := fun _ _ => none
  remove := fun _ _ => none
  decode := fun _ _ => .ok ⟨[]⟩
  image := fun path _ => if path = "abc-1.png" then some "png: invalid format" else none
  writePdf := fun _ _ fs => (none, fs)

/-- An environment in which nothing fails; every response has the body
`[1, 2, 3]`. -/
def plainEnv : Env Int where
  now := fun _ => "2021-01-01T00:00:00Z"
  statErr := fun _ => false
  httpGet := fun _ _ => .response 200 "200 OK" [1, 2, 3] none
  create := fun _ _ => none
  remove := fun _ _ => none
  decode := fun _ _ => .ok ⟨[]⟩
  image := fun _ _ => none
  writePdf := fun _ _ fs => (none, fs)

/-- An environment in which `os.Stat` fails, with an error other than "not
exist", on the output path `plain/out.pdf` (its component `plain` is not a
directory) and on the cache path `abc-1.png`; nothing else fails. -/
def statErrEnv : Env Int where
  now := fun _ => "2021-01-01T00:00:00Z"
  statErr := fun path => path == "plain/out.pdf" || path == "abc-1.png"
  httpGet := fun _ _ => .response 200 "200 OK" [1, 2, 3] none
  create := fun _ _ => none
  remove := fun _ _ => none
  decode := fun _ _ => .ok ⟨[]⟩
  image := fun _ _ => none
  writePdf := fun _ _ fs => (none, fs)

/-- A world whose only file is the regular file `plain`. -/
def plainFileWorld : World :=
  ⟨fun path => if path = "plain" then some [0] else none, []⟩

/-- The flag variables when no flag and no argument is given. -/
def noFlags : Flags :=
  { url := "", sid := "", showVersion := false, verbose := false, overWrite := false,
    pdfFileName := "", arg0 := "" }

/-- The empty filesystem with no effects yet. -/
def emptyWorld : World := ⟨fun _ => none, []⟩

/-- The position `(x, y, w, h) = (left, H - top - height, width, height)` of
the annotation of a link on a page of height `H`. -/
def linkAnnot {R : Type} [Sub R] (H : R) (l : metaLink R) : Annot R :=
  ⟨l.URL, l.Left, H - l.Top - l.Height, l.Width, l.Height⟩

/-- The page expected for an entry of the metadata and its image: sized to
the viewport, backed by the image, with one annotation per link. -/
def expectedPage {R : Type} [Sub R] (page : metaPageInfo R) (image : String) : PdfPage R :=
  ⟨⟨page.ViewPort.Width, page.ViewPort.Height⟩, [image],
    page.Links.map (linkAnnot page.ViewPort.Height)⟩

/-! ## Lemmas on the regular expressions and on `readFlags` -/

theorem dropLead_append (p r : List Char) : dropLead p (p ++ r) = some r := by
  induction p with
  | nil => cases r <;> rfl
  | cons a p ih => simp [dropLead, ih]

theorem dropLead_some {p s r : List Char} (h : dropLead p s = some r) : s = p ++ r := by
  induction p generalizing s with
  | nil => cases s <;> simp_all [dropLead]
  | cons a p ih =>
    cases s with
    | nil => simp [dropLead] at h
    | cons b s =>
      simp only [dropLead] at h
      split_ifs at h with hab
      subst hab
      simp [ih h]

theorem resumePage_data (s : String) :
    (resumePage s).data = "https://resume.io/r/".data ++ s.data := by
  simp [resumePage]

theorem reSID_iff (s : String) :
    reSID s = true ↔ s.data ≠ [] ∧ ∀ c ∈ s.data, c.isAlphanum = true := by
  simp [reSID, List.all_eq_true]

theorem reSID_ne_empty {s : String} (h : reSID s = true) : s ≠ "" := by
  rintro rfl
  simp [reSID] at h

theorem reIDURL_of_reSID {s : String} (h : reSID s = true) : reIDURL s = false := by
  rw [reSID_iff] at h
  unfold reIDURL
  cases hd : dropLead "https://resume.io/".data s.data with
  | none => rfl
  | some r =>
    exfalso
    have hs := dropLead_some hd
    have hc : ':' ∈ s.data := by rw [hs]; simp
    have := h.2 _ hc
    revert this
    decide

theorem reIDURL_resumePage (s : String) : reIDURL (resumePage s) = false := by
  unfold reIDURL
  rw [resumePage_data]
  rfl

theorem takeWhile_all {p : Char → Bool} {l : List Char} (h : ∀ c ∈ l, p c = true) :
    l.takeWhile p = l := by
  induction l with
  | nil => rfl
  | cons a l ih =>
    simp only [List.mem_cons, forall_eq_or_imp] at h
    simp [List.takeWhile, h.1, ih h.2]

theorem reURLFind_resumePage {s : String} (h : reSID s = true) :
    reURLFind (resumePage s) = some s := by
  rw [reSID_iff] at h
  unfold reURLFind
  rw [resumePage_data, dropLead_append]
  simp only [takeWhile_all h.2]
  have hne : s.data.isEmpty = false := by
    cases hs : s.data with
    | nil => exact absurd hs h.1
    | cons a l => rfl
  simp [hne]


theorem toLower_eq_iff (c lo up : Char) (hup : 65 ≤ up.toNat ∧ up.toNat ≤ 90)
    (hlo : Char.ofNat (up.toNat + 32) = lo) (hlo2 : ¬ (65 ≤ lo.toNat ∧ lo.toNat ≤ 90))
    (hinj : ∀ n, 65 ≤ n → n ≤ 90 → Char.ofNat (n + 32) = lo → n = up.toNat) :
    c.toLower = lo ↔ c = lo ∨ c = up := by
  constructor
  · intro h
    unfold Char.toLower at h
    simp only at h
    split_ifs at h with hr
    · right
      have := hinj _ hr.1 hr.2 h
      rw [← Char.ofNat_toNat c, this, Char.ofNat_toNat]
    · left; exact h
  · rintro (rfl | rfl)
    · unfold Char.toLower
      simp only
      rw [if_neg hlo2]
    · unfold Char.toLower
      simp only
      rw [if_pos hup, hlo]

theorem toLower_p (c : Char) : c.toLower = 'p' ↔ c = 'p' ∨ c = 'P' := by
  apply toLower_eq_iff c 'p' 'P' (by decide) (by decide) (by decide)
  intro n h1 h2
  interval_cases n <;> decide

theorem toLower_d (c : Char) : c.toLower = 'd' ↔ c = 'd' ∨ c = 'D' := by
  apply toLower_eq_iff c 'd' 'D' (by decide) (by decide) (by decide)
  intro n h1 h2
  interval_cases n <;> decide

theorem toLower_f (c : Char) : c.toLower = 'f' ↔ c = 'f' ∨ c = 'F' := by
  apply toLower_eq_iff c 'f' 'F' (by decide) (by decide) (by decide)
  intro n h1 h2
  interval_cases n <;> decide


theorem rePDF_append (s : String) : rePDF (s ++ ".pdf") = true := by
  simp [rePDF]

theorem extractArg_fields (f : Flags) :
    (extractArg f).2.pdfFileName = f.pdfFileName ∧ (extractArg f).2.overWrite = f.overWrite
    ∧ (extractArg f).2.showVersion = f.showVersion ∧ (extractArg f).2.arg0 = f.arg0
    ∧ (extractArg f).2.verbose = f.verbose := by
  unfold extractArg
  split_ifs <;> simp

theorem reURLFind_spec {u s : String} (h : reURLFind u = some s) :
    reSID s = true ∧ ∃ rest, u.data = (resumePage s).data ++ rest := by
  unfold reURLFind at h
  cases hd : dropLead "https://resume.io/r/".data u.data with
  | none => simp [hd] at h
  | some r =>
    simp only [hd] at h
    split_ifs at h with he
    simp only [Option.some.injEq] at h
    subst h
    refine ⟨?_, r.dropWhile Char.isAlphanum, ?_⟩
    · rw [reSID_iff]
      refine ⟨by simpa using he, fun c hc => ?_⟩
      exact List.mem_takeWhile_imp hc
    · rw [resumePage_data, dropLead_some hd]
      simp [List.takeWhile_append_dropWhile]


theorem readFlags_of_sid {R : Type} (env : Env R) (f : Flags) (hv' : f.showVersion = false)
    (he' : (extractArg f).1 = true) (hs : (extractArg f).2.sid ≠ "")
    (hre : reSID (extractArg f).2.sid = true) (w : World) :
    readFlags env f w =
      (decide (f.overWrite = true
          ∨ isNotExist env (pdfNameOf (extractArg f).2.sid f.pdfFileName) w.fs = true),
       { (extractArg f).2 with
          sid := (extractArg f).2.sid, url := resumePage (extractArg f).2.sid,
          pdfFileName := pdfNameOf (extractArg f).2.sid f.pdfFileName },
       w.record (.stat (pdfNameOf (extractArg f).2.sid f.pdfFileName))) := by
  obtain ⟨hp, ho, -, -, -⟩ := extractArg_fields f
  have hf := reURLFind_resumePage hre
  have hidu := reIDURL_resumePage (extractArg f).2.sid
  unfold readFlags pdfNameOf
  by_cases hn : f.pdfFileName = "" <;>
  by_cases hr : rePDF f.pdfFileName = false <;>
  by_cases hw : f.overWrite = true <;>
  simp [hv', he', hs, hidu, reURL, hf, hre, hp, ho, hn, hr, hw, rePDF_append] <;>
  split_ifs with hx <;> simp [hx]

theorem readFlags_of_url {R : Type} (env : Env R) (f : Flags) (hv' : f.showVersion = false)
    (he' : (extractArg f).1 = true) (hs : (extractArg f).2.sid = "")
    (hidu : reIDURL (extractArg f).2.url = false) (s : String)
    (hm : reURLFind (extractArg f).2.url = some s) (w : World) :
    readFlags env f w =
      (decide (f.overWrite = true ∨ isNotExist env (pdfNameOf s f.pdfFileName) w.fs = true),
       { (extractArg f).2 with
          sid := s, url := (extractArg f).2.url, pdfFileName := pdfNameOf s f.pdfFileName },
       w.record (.stat (pdfNameOf s f.pdfFileName))) := by
  obtain ⟨hp, ho, -, -, -⟩ := extractArg_fields f
  have hu : (extractArg f).2.url ≠ "" := by
    intro hc
    rw [hc] at hm
    have hn : reURLFind "" = none := by decide
    rw [hn] at hm
    cases hm
  unfold readFlags pdfNameOf
  by_cases hn : f.pdfFileName = "" <;>
  by_cases hr : rePDF f.pdfFileName = false <;>
  by_cases hw : f.overWrite = true <;>
  simp [hv', he', hs, hu, hidu, reURL, hm, hp, ho, hn, hr, hw, rePDF_append] <;>
  split_ifs with hx <;> simp [hx]

theorem readFlags_cases (R : Type) (f : Flags) :
    (∃ g, ∀ (env : Env R) (w : World), readFlags env f w = (false, g, w)) ∨
    (∃ s u, reSID s = true ∧ (∃ rest, u.data = (resumePage s).data ++ rest)
      ∧ ∀ (env : Env R) (w : World), readFlags env f w =
        (decide (f.overWrite = true ∨ isNotExist env (pdfNameOf s f.pdfFileName) w.fs = true),
         { (extractArg f).2 with sid := s, url := u, pdfFileName := pdfNameOf s f.pdfFileName },
         w.record (.stat (pdfNameOf s f.pdfFileName)))) := by
  by_cases hv : f.showVersion = true
  · exact Or.inl ⟨f, fun env w => by unfold readFlags; simp [hv]⟩
  by_cases he : (extractArg f).1 = false
  · exact Or.inl ⟨(extractArg f).2, fun env w => by unfold readFlags; simp [hv, he]⟩
  have hv' : f.showVersion = false := by simpa using hv
  have he' : (extractArg f).1 = true := by simpa using he
  by_cases hs : (extractArg f).2.sid = ""
  · by_cases hidu : reIDURL (extractArg f).2.url = true
    · refine Or.inl ⟨(extractArg f).2, fun env w => ?_⟩
      unfold readFlags
      simp [hv', he', hs, hidu]
    cases hm : reURLFind (extractArg f).2.url with
    | none =>
      refine Or.inl ⟨(extractArg f).2, fun env w => ?_⟩
      unfold readFlags
      simp [hv', he', hs, reURL, hm]
    | some s =>
      have hspec := reURLFind_spec hm
      exact Or.inr ⟨s, (extractArg f).2.url, hspec.1, hspec.2,
        fun env w => readFlags_of_url env f hv' he' hs (by simpa using hidu) s hm w⟩
  · by_cases hre : reSID (extractArg f).2.sid = true
    · exact Or.inr ⟨(extractArg f).2.sid, resumePage (extractArg f).2.sid, hre, ⟨[], by simp⟩,
        fun env w => readFlags_of_sid env f hv' he' hs hre w⟩
    · refine Or.inl ⟨(extractArg f).2, fun env w => ?_⟩
      unfold readFlags
      simp [hv', he', hs, hre]

theorem readFlags_accept {R : Type} (env0 : Env R) (f : Flags) (w0 : World)
    (h : (readFlags env0 f w0).1 = true) :
    ∃ s u, reSID s = true ∧ (∃ rest, u.data = (resumePage s).data ++ rest)
      ∧ ∀ (env : Env R) (w : World), readFlags env f w =
        (decide (f.overWrite = true ∨ isNotExist env (pdfNameOf s f.pdfFileName) w.fs = true),
         { (extractArg f).2 with sid := s, url := u, pdfFileName := pdfNameOf s f.pdfFileName },
         w.record (.stat (pdfNameOf s f.pdfFileName))) := by
  rcases readFlags_cases R f with ⟨g, hg⟩ | hr
  · rw [hg env0 w0] at h
    cases h
  · exact hr

theorem rePDF_eq (s : String) : rePDF s = endsWithPdfAnyCase s := by
  unfold rePDF endsWithPdfAnyCase
  split
  · rw [Bool.eq_iff_iff]
    simp [toLower_p, toLower_d, toLower_f, and_assoc]
  · rfl

theorem pdfNameOf_eq (s n : String) : pdfNameOf s n = outputPath s n := by
  unfold pdfNameOf outputPath
  by_cases hn : n = ""
  · simp [hn, rePDF_append]
  · simp only [hn, if_false, ← rePDF_eq]
    cases rePDF n <;> simp

theorem rePDF_pdfNameOf (s n : String) : rePDF (pdfNameOf s n) = true := by
  unfold pdfNameOf
  by_cases hn : n = ""
  · simp [hn, rePDF_append]
  · simp only [hn, if_false]
    split_ifs with h
    · exact rePDF_append _
    · simpa using h

theorem digitChar_isDigit (d : Nat) (h : d < 10) : (Nat.digitChar d).isDigit = true := by
  interval_cases d <;> rfl

theorem toDigitsCore_isDigit (fuel n : Nat) (ds : List Char)
    (hds : ∀ c ∈ ds, c.isDigit = true) :
    ∀ c ∈ Nat.toDigitsCore 10 fuel n ds, c.isDigit = true := by
  induction fuel generalizing n ds with
  | zero => simpa [Nat.toDigitsCore] using hds
  | succ fuel ih =>
    have hd : ∀ c ∈ Nat.digitChar (n % 10) :: ds, c.isDigit = true := by
      intro c hc
      rcases List.mem_cons.1 hc with rfl | hc
      · exact digitChar_isDigit _ (Nat.mod_lt _ (by norm_num))
      · exact hds c hc
    unfold Nat.toDigitsCore
    simp only
    split_ifs
    · exact hd
    · exact ih _ _ hd

theorem repr_isDigit (k : Nat) : ∀ c ∈ (Nat.repr k).data, c.isDigit = true := by
  intro c hc
  exact toDigitsCore_isDigit _ _ [] (by simp) c (by simpa [Nat.repr, Nat.toDigits, List.asString] using hc)

theorem isAlphanum_not_sep {c : Char} (h : c.isAlphanum = true) : c ≠ '/' ∧ c ≠ '\\' := by
  constructor <;> (rintro rfl; revert h; decide)

theorem isDigit_not_sep {c : Char} (h : c.isDigit = true) : c ≠ '/' ∧ c ≠ '\\' :=
  isAlphanum_not_sep (by simp [Char.isAlphanum, h])

theorem safeFileName_pageFile {s : String} (hs : reSID s = true) (k : Nat) :
    safeFileName (pageFile s k) = true := by
  rw [reSID_iff] at hs
  unfold safeFileName
  rw [Bool.and_eq_true]
  constructor
  · rw [List.all_eq_true]
    intro c hc
    have hc' : c ∈ s.data ∨ c = '-' ∨ c ∈ (Nat.repr k).data ∨ c = '.' ∨ c ∈ "png".data := by
      simpa [pageFile, resumeExt, or_assoc] using hc
    have : c ≠ '/' ∧ c ≠ '\\' := by
      rcases hc' with h | rfl | h | rfl | h
      · exact isAlphanum_not_sep (hs.2 c h)
      · decide
      · exact isDigit_not_sep (repr_isDigit k c h)
      · decide
      · have : c = 'p' ∨ c = 'n' ∨ c = 'g' := by simpa using h
        rcases this with rfl | rfl | rfl <;> decide
    simpa using this
  · have : pageFile s k ≠ ".." := by
      intro hc
      have hm : '-' ∈ (pageFile s k).data := by simp [pageFile]
      rw [hc] at hm
      revert hm
      decide
    simpa using this

theorem safeFileName_default {s : String} (hs : reSID s = true) :
    safeFileName (s ++ ".pdf") = true := by
  rw [reSID_iff] at hs
  unfold safeFileName
  rw [Bool.and_eq_true]
  constructor
  · rw [List.all_eq_true]
    intro c hc
    have hc' : c ∈ s.data ∨ c ∈ ".pdf".data := by simpa using hc
    have : c ≠ '/' ∧ c ≠ '\\' := by
      rcases hc' with h | h
      · exact isAlphanum_not_sep (hs.2 c h)
      · have : c = '.' ∨ c = 'p' ∨ c = 'd' ∨ c = 'f' := by simpa using h
        rcases this with rfl | rfl | rfl | rfl <;> decide
    simpa using this
  · have : s ++ ".pdf" ≠ ".." := by
      intro hc
      have hm : 'p' ∈ (s ++ ".pdf").data := by simp
      rw [hc] at hm
      revert hm
      decide
    simpa using this

theorem digitChar_value (d : Nat) (h : d < 10) : (Nat.digitChar d).toNat - 48 = d := by
  interval_cases d <;> rfl

theorem digitsValue_snoc (l : List Char) (c : Char) :
    digitsValue (l ++ [c]) = 10 * digitsValue l + (c.toNat - 48) := by
  simp [digitsValue, List.foldl_append]

theorem toDigitsCore_value (fuel : Nat) :
    ∀ n ds, n < fuel → ∃ l, Nat.toDigitsCore 10 fuel n ds = l ++ ds ∧ digitsValue l = n := by
  induction fuel with
  | zero => intro n ds h; omega
  | succ fuel ih =>
    intro n ds h
    unfold Nat.toDigitsCore
    simp only
    split_ifs with h0
    · refine ⟨[Nat.digitChar (n % 10)], rfl, ?_⟩
      have := digitsValue_snoc [] (Nat.digitChar (n % 10))
      simp only [List.nil_append] at this
      rw [this, digitChar_value _ (Nat.mod_lt _ (by norm_num))]
      simp [digitsValue]
      omega
    · obtain ⟨l, hl, hv⟩ := ih (n / 10) (Nat.digitChar (n % 10) :: ds) (by omega)
      refine ⟨l ++ [Nat.digitChar (n % 10)], by simp [hl], ?_⟩
      rw [digitsValue_snoc, hv, digitChar_value _ (Nat.mod_lt _ (by norm_num))]
      omega

theorem repr_injective {a b : Nat} (h : Nat.repr a = Nat.repr b) : a = b := by
  obtain ⟨la, hla, hva⟩ := toDigitsCore_value (a + 1) a [] (by omega)
  obtain ⟨lb, hlb, hvb⟩ := toDigitsCore_value (b + 1) b [] (by omega)
  have h' : Nat.toDigits 10 a = Nat.toDigits 10 b := by
    have := congrArg String.data h
    simpa [Nat.repr, List.asString] using this
  simp only [Nat.toDigits] at h'
  rw [hla, hlb] at h'
  simp only [List.append_nil] at h'
  rw [← hva, ← hvb, h']

theorem pageFile_injective {s : String} {a b : Nat} (h : pageFile s a = pageFile s b) : a = b := by
  have := congrArg String.data h
  simp only [pageFile, String.data_append, List.append_assoc, List.append_cancel_left_eq,
    List.append_cancel_right_eq] at this
  exact repr_injective (String.ext this)

theorem digits_run {da db r1 r2 : List Char} (ha : ∀ c ∈ da, c.isDigit = true)
    (hb : ∀ c ∈ db, c.isDigit = true) (h : da ++ '.' :: r1 = db ++ '.' :: r2) : da = db := by
  induction da generalizing db with
  | nil =>
    cases db with
    | nil => rfl
    | cons b db =>
      simp only [List.nil_append, List.cons_append, List.cons.injEq] at h
      have := hb b (by simp)
      rw [← h.1] at this
      exact absurd this (by decide)
  | cons a da ih =>
    cases db with
    | nil =>
      simp only [List.nil_append, List.cons_append, List.cons.injEq] at h
      have := ha a (by simp)
      rw [h.1] at this
      exact absurd this (by decide)
    | cons b db =>
      simp only [List.cons_append, List.cons.injEq] at h
      rw [h.1, ih (fun c hc => ha c (by simp [hc])) (fun c hc => hb c (by simp [hc])) h.2]

theorem resumeIMG_injective {s t1 t2 : String} {a b : Nat}
    (h : resumeIMG s a resumeExt t1 resumeSize = resumeIMG s b resumeExt t2 resumeSize) :
    a = b := by
  have := congrArg String.data h
  simp only [resumeIMG, resumeExt, String.data_append, List.append_assoc,
    List.append_cancel_left_eq] at this
  have h2 : (Nat.repr a).data ++ '.' :: ("png?cache=".data ++ (t1.data ++ ("&size=".data ++ (Nat.repr resumeSize).data)))
      = (Nat.repr b).data ++ '.' :: ("png?cache=".data ++ (t2.data ++ ("&size=".data ++ (Nat.repr resumeSize).data))) := by
    simpa using this
  exact repr_injective (String.ext (digits_run (repr_isDigit a) (repr_isDigit b) h2))

/-! ## Lemmas on image acquisition -/

theorem isNotExist_true_iff {R : Type} (env : Env R) (path : String) (fs : FS) :
    isNotExist env path fs = true ↔ env.statErr path = false ∧ fs path = none := by
  simp [isNotExist, Option.isNone_iff_eq_none]

theorem isNotExist_false_iff {R : Type} (env : Env R) (path : String) (fs : FS) :
    isNotExist env path fs = false ↔ env.statErr path = true ∨ fs path ≠ none := by
  rw [← Bool.not_eq_true, isNotExist_true_iff]
  cases env.statErr path <;> simp

theorem isNotExist_false_mono {R : Type} (env : Env R) (path : String) (fs fs' : FS)
    (hmono : ∀ c, fs path = some c → fs' path = some c)
    (h : isNotExist env path fs = false) : isNotExist env path fs' = false := by
  rw [isNotExist_false_iff] at h ⊢
  rcases h with h | h
  · exact Or.inl h
  · obtain ⟨c, hc⟩ := Option.ne_none_iff_exists'.1 h
    right
    rw [hmono c hc]
    simp

theorem downloadPage_cases {R : Type} (env : Env R) (u file : String) (w : World) :
    (∃ e, downloadPage env u file w = (some e, ⟨w.fs, w.trace ++ [.get u]⟩))
    ∨ (∃ e, downloadPage env u file w = (some e, ⟨w.fs, w.trace ++ [.get u, .create file]⟩))
    ∨ (∃ e status body n,
        env.httpGet w.trace.length u = .response 200 status body (some (n, e))
        ∧ downloadPage env u file w
          = (some e, ⟨Function.update w.fs file (some (body.take n)),
              w.trace ++ [.get u, .create file, .copy file (body.take n)]⟩))
    ∨ (∃ status body,
        env.httpGet w.trace.length u = .response 200 status body none
        ∧ downloadPage env u file w
          = (none, ⟨Function.update w.fs file (some body),
              w.trace ++ [.get u, .create file, .copy file body]⟩)) := by
  unfold downloadPage
  cases hg : env.httpGet w.trace.length u with
  | error err => exact Or.inl ⟨err, by simp [World.record]⟩
  | response code status body bodyErr =>
    by_cases hc : code = 200
    · subst hc
      cases hcr : env.create file w.fs with
      | some err => exact Or.inr (Or.inl ⟨err, by simp [World.record, hcr]⟩)
      | none =>
        cases bodyErr with
        | some ne =>
          obtain ⟨n, e⟩ := ne
          exact Or.inr (Or.inr (Or.inl ⟨e, status, body, n, rfl, by simp [World.record, hcr]⟩))
        | none =>
          exact Or.inr (Or.inr (Or.inr ⟨status, body, rfl, by simp [World.record, hcr]⟩))
    · exact Or.inl ⟨status, by simp [World.record, hc]⟩

theorem loop_hit_step {R : Type} (env : Env R) (s : String) (n pID : Nat)
    (pages : List String) (w : World) (h : isNotExist env (pageFile s pID) w.fs = false) :
    getResumeImagesLoop env s (n + 1) pID pages w
      = getResumeImagesLoop env s n (pID + 1) (pages ++ [pageFile s pID])
          (w.record (.stat (pageFile s pID))) := by
  rw [getResumeImagesLoop]
  simp [h]

theorem loop_miss_fail {R : Type} (env : Env R) (s : String) (n pID : Nat)
    (pages : List String) (w : World) (h : isNotExist env (pageFile s pID) w.fs = true) (e : String)
    (w2 : World)
    (hd : downloadPage env
        (resumeIMG s pID resumeExt (env.now (w.record (.stat (pageFile s pID))).trace.length)
          resumeSize)
        (pageFile s pID) (w.record (.stat (pageFile s pID))) = (some e, w2)) :
    getResumeImagesLoop env s (n + 1) pID pages w = (pages, some e, w2) := by
  rw [getResumeImagesLoop]
  simp only [h, if_true]
  rw [hd]

theorem loop_miss_ok {R : Type} (env : Env R) (s : String) (n pID : Nat)
    (pages : List String) (w : World) (h : isNotExist env (pageFile s pID) w.fs = true) (w2 : World)
    (hd : downloadPage env
        (resumeIMG s pID resumeExt (env.now (w.record (.stat (pageFile s pID))).trace.length)
          resumeSize)
        (pageFile s pID) (w.record (.stat (pageFile s pID))) = (none, w2)) :
    getResumeImagesLoop env s (n + 1) pID pages w
      = getResumeImagesLoop env s n (pID + 1) (pages ++ [pageFile s pID]) w2 := by
  rw [getResumeImagesLoop]
  simp only [h, if_true]
  rw [hd]


theorem loop_induction {R : Type} (env : Env R) (s : String)
    (P : Nat → Nat → List String → World → List String × Option String × World → Prop)
    (h0 : ∀ pID pages w, P 0 pID pages w (pages, none, w))
    (hhit : ∀ n pID pages w, isNotExist env (pageFile s pID) w.fs = false →
      P n (pID + 1) (pages ++ [pageFile s pID]) (w.record (.stat (pageFile s pID)))
        (getResumeImagesLoop env s n (pID + 1) (pages ++ [pageFile s pID])
          (w.record (.stat (pageFile s pID)))) →
      P (n + 1) pID pages w
        (getResumeImagesLoop env s n (pID + 1) (pages ++ [pageFile s pID])
          (w.record (.stat (pageFile s pID)))))
    (hfail : ∀ n pID pages w e w2, isNotExist env (pageFile s pID) w.fs = true →
      downloadPage env
        (resumeIMG s pID resumeExt (env.now (w.record (.stat (pageFile s pID))).trace.length)
          resumeSize)
        (pageFile s pID) (w.record (.stat (pageFile s pID))) = (some e, w2) →
      P (n + 1) pID pages w (pages, some e, w2))
    (hok : ∀ n pID pages w w2, isNotExist env (pageFile s pID) w.fs = true →
      downloadPage env
        (resumeIMG s pID resumeExt (env.now (w.record (.stat (pageFile s pID))).trace.length)
          resumeSize)
        (pageFile s pID) (w.record (.stat (pageFile s pID))) = (none, w2) →
      P n (pID + 1) (pages ++ [pageFile s pID]) w2
        (getResumeImagesLoop env s n (pID + 1) (pages ++ [pageFile s pID]) w2) →
      P (n + 1) pID pages w
        (getResumeImagesLoop env s n (pID + 1) (pages ++ [pageFile s pID]) w2)) :
    ∀ n pID pages w, P n pID pages w (getResumeImagesLoop env s n pID pages w) := by
  intro n
  induction n with
  | zero => intro pID pages w; exact h0 pID pages w
  | succ n ih =>
    intro pID pages w
    by_cases h : isNotExist env (pageFile s pID) w.fs = true
    · cases hd : downloadPage env
          (resumeIMG s pID resumeExt (env.now (w.record (.stat (pageFile s pID))).trace.length)
            resumeSize)
          (pageFile s pID) (w.record (.stat (pageFile s pID))) with
      | mk err w2 =>
        cases err with
        | some e =>
          rw [loop_miss_fail env s n pID pages w h e w2 hd]
          exact hfail n pID pages w e w2 h hd
        | none =>
          rw [loop_miss_ok env s n pID pages w h w2 hd]
          exact hok n pID pages w w2 h hd (ih _ _ _)
    · have h' : isNotExist env (pageFile s pID) w.fs = false := by simpa using h
      rw [loop_hit_step env s n pID pages w h']
      exact hhit n pID pages w h' (ih _ _ _)

theorem loop_pages {R : Type} (env : Env R) (s : String) (n pID : Nat) (pages : List String)
    (w : World) :
    ∃ m, m ≤ n
      ∧ (getResumeImagesLoop env s n pID pages w).1
          = pages ++ (List.range' pID m).map (pageFile s)
      ∧ ((getResumeImagesLoop env s n pID pages w).2.1 = none → m = n)
      ∧ ((getResumeImagesLoop env s n pID pages w).2.1 ≠ none → m < n) := by
  refine loop_induction env s
    (fun n pID pages _ r => ∃ m, m ≤ n ∧ r.1 = pages ++ (List.range' pID m).map (pageFile s)
      ∧ (r.2.1 = none → m = n) ∧ (r.2.1 ≠ none → m < n)) ?_ ?_ ?_ ?_ n pID pages w
  · intro pID pages w
    exact ⟨0, le_refl _, by simp, fun _ => rfl, fun h => absurd rfl h⟩
  · rintro n pID pages w - ⟨m, hm, hp, h1, h2⟩
    exact ⟨m + 1, by omega, by simp [hp, List.range'_succ], fun h => by rw [h1 h],
      fun h => by have := h2 h; omega⟩
  · intro n pID pages w e w2 _ _
    exact ⟨0, by omega, by simp, fun h => (by cases h), fun _ => by omega⟩
  · rintro n pID pages w w2 - - ⟨m, hm, hp, h1, h2⟩
    exact ⟨m + 1, by omega, by simp [hp, List.range'_succ], fun h => by rw [h1 h],
      fun h => by have := h2 h; omega⟩

theorem downloadPage_ok_world {R : Type} {env : Env R} {u file : String} {w w2 : World}
    (h : downloadPage env u file w = (none, w2)) :
    ∃ body, w2 = ⟨Function.update w.fs file (some body),
      w.trace ++ [.get u, .create file, .copy file body]⟩ := by
  rcases downloadPage_cases env u file w with ⟨e, he⟩ | ⟨e, he⟩ | ⟨e, st, b, n, -, he⟩
    | ⟨st, b, -, he⟩
  · rw [he] at h; cases h
  · rw [he] at h; cases h
  · rw [he] at h; cases h
  · rw [he] at h
    exact ⟨b, (Prod.mk.inj h).2.symm⟩

theorem downloadPage_fail_world {R : Type} {env : Env R} {u file e : String} {w w2 : World}
    (h : downloadPage env u file w = (some e, w2)) :
    ∃ tail, w2.trace = w.trace ++ .get u :: tail
      ∧ (∀ v, Effect.get v ∉ tail) ∧ statPaths tail = []
      ∧ ∀ path, path ≠ file → w2.fs path = w.fs path := by
  rcases downloadPage_cases env u file w with ⟨e, he⟩ | ⟨e, he⟩ | ⟨e, st, b, n, -, he⟩
    | ⟨st, b, -, he⟩
  · rw [he] at h
    obtain rfl := (Prod.mk.inj h).2
    exact ⟨[], rfl, by simp, rfl, fun _ _ => rfl⟩
  · rw [he] at h
    obtain rfl := (Prod.mk.inj h).2
    exact ⟨[.create file], by simp, by simp, rfl, fun _ _ => rfl⟩
  · rw [he] at h
    obtain rfl := (Prod.mk.inj h).2
    exact ⟨[.create file, .copy file (b.take n)], by simp, by simp, rfl,
      fun path hp => by simp [Function.update_noteq hp]⟩
  · rw [he] at h; cases h

theorem loop_fs {R : Type} (env : Env R) (s : String) (n pID : Nat) (pages : List String)
    (w : World) :
    (∀ path c, w.fs path = some c →
        (getResumeImagesLoop env s n pID pages w).2.2.fs path = some c)
    ∧ ((getResumeImagesLoop env s n pID pages w).2.1 = none →
        ∀ k, pID ≤ k → k < pID + n →
          isNotExist env (pageFile s k) (getResumeImagesLoop env s n pID pages w).2.2.fs
            = false) := by
  refine loop_induction env s
    (fun n pID _ w r => (∀ path c, w.fs path = some c → r.2.2.fs path = some c)
      ∧ (r.2.1 = none → ∀ k, pID ≤ k → k < pID + n →
          isNotExist env (pageFile s k) r.2.2.fs = false))
    ?_ ?_ ?_ ?_ n pID pages w
  · intro pID pages w
    exact ⟨fun _ _ h => h, fun _ k h1 h2 => by omega⟩
  · rintro n pID pages w h ⟨ih1, ih2⟩
    refine ⟨fun path c hc => ih1 path c hc, fun hok k h1 h2 => ?_⟩
    rcases Nat.eq_or_lt_of_le h1 with rfl | hlt
    · exact isNotExist_false_mono env _ w.fs _ (fun c hc => ih1 _ c hc) h
    · exact ih2 hok k hlt (by omega)
  · intro n pID pages w e w2 h hd
    obtain ⟨tail, -, -, -, hfs⟩ := downloadPage_fail_world hd
    refine ⟨fun path c hc => ?_, fun hc => by cases hc⟩
    have hne : path ≠ pageFile s pID := by
      rintro rfl
      rw [((isNotExist_true_iff env _ _).1 h).2] at hc
      cases hc
    rw [hfs path hne]; exact hc
  · rintro n pID pages w w2 h hd ⟨ih1, ih2⟩
    obtain ⟨body, rfl⟩ := downloadPage_ok_world hd
    refine ⟨fun path c hc => ih1 path c ?_, fun hok k h1 h2 => ?_⟩
    · have hne : path ≠ pageFile s pID := by
        rintro rfl
        rw [((isNotExist_true_iff env _ _).1 h).2] at hc
        cases hc
      simpa [Function.update_noteq hne, World.record] using hc
    · rcases Nat.eq_or_lt_of_le h1 with rfl | hlt
      · rw [isNotExist_false_iff]
        right
        rw [ih1 _ body (by simp)]; simp
      · exact ih2 hok k hlt (by omega)

theorem loop_all_hit {R : Type} (env : Env R) (s : String) (n : Nat) :
    ∀ (pID : Nat) (pages : List String) (w : World),
      (∀ k, pID ≤ k → k < pID + n → isNotExist env (pageFile s k) w.fs = false) →
      getResumeImagesLoop env s n pID pages w
        = (pages ++ (List.range' pID n).map (pageFile s), none,
            ⟨w.fs, w.trace ++ (List.range' pID n).map (fun k => Effect.stat (pageFile s k))⟩) := by
  induction n with
  | zero => intro pID pages w _; simp [getResumeImagesLoop]
  | succ n ih =>
    intro pID pages w h
    rw [loop_hit_step env s n pID pages w (h pID (le_refl _) (by omega)),
      ih (pID + 1) (pages ++ [pageFile s pID]) (w.record (.stat (pageFile s pID)))
        (fun k h1 h2 => h k (by omega) (by omega))]
    simp [World.record, List.range'_succ]

theorem loop_failing {R : Type} (env : Env R) (s : String) (n pID : Nat)
    (pages : List String) (w : World) (e : String)
    (he : (getResumeImagesLoop env s n pID pages w).2.1 = some e) :
    ∃ m wk newk, m < n
      ∧ (getResumeImagesLoop env s n pID pages w).1
          = pages ++ (List.range' pID m).map (pageFile s)
      ∧ wk.trace = w.trace ++ newk
      ∧ statPaths newk = (List.range' pID (m + 1)).map (pageFile s)
      ∧ (∀ u, Effect.get u ∈ newk → ∃ k t, pID ≤ k ∧ k < pID + m
          ∧ u = resumeIMG s k resumeExt t resumeSize)
      ∧ isNotExist env (pageFile s (pID + m)) wk.fs = true
      ∧ downloadPage env (resumeIMG s (pID + m) resumeExt (env.now wk.trace.length) resumeSize)
          (pageFile s (pID + m)) wk = (some e, (getResumeImagesLoop env s n pID pages w).2.2)
      ∧ (∀ path c, w.fs path = some c → wk.fs path = some c)
      ∧ (∀ j, pID ≤ j → j < pID + m → isNotExist env (pageFile s j) wk.fs = false) := by
  revert he
  refine loop_induction env s
    (fun n pID pages w r => r.2.1 = some e → ∃ m wk newk, m < n
      ∧ r.1 = pages ++ (List.range' pID m).map (pageFile s)
      ∧ wk.trace = w.trace ++ newk
      ∧ statPaths newk = (List.range' pID (m + 1)).map (pageFile s)
      ∧ (∀ u, Effect.get u ∈ newk → ∃ k t, pID ≤ k ∧ k < pID + m
          ∧ u = resumeIMG s k resumeExt t resumeSize)
      ∧ isNotExist env (pageFile s (pID + m)) wk.fs = true
      ∧ downloadPage env (resumeIMG s (pID + m) resumeExt (env.now wk.trace.length) resumeSize)
          (pageFile s (pID + m)) wk = (some e, r.2.2)
      ∧ (∀ path c, w.fs path = some c → wk.fs path = some c)
      ∧ (∀ j, pID ≤ j → j < pID + m → isNotExist env (pageFile s j) wk.fs = false))
    ?_ ?_ ?_ ?_ n pID pages w
  · intro pID pages w hc
    cases hc
  · rintro n pID pages w h ih hr
    obtain ⟨m, wk, newk, hm, hp, ht, hst, hg, hmiss, hd, hmono, hex⟩ := ih hr
    have hidx : pID + 1 + m = pID + (m + 1) := by omega
    rw [hidx] at hmiss hd
    refine ⟨m + 1, wk, .stat (pageFile s pID) :: newk, by omega,
      by simp [hp, List.range'_succ], by rw [ht]; simp [World.record],
      by rw [List.range'_succ (n := m + 1)]; simp [statPaths, hst], ?_, hmiss, hd,
      fun path c hc => hmono path c hc, ?_⟩
    · intro u hu
      simp only [List.mem_cons, reduceCtorEq, false_or] at hu
      obtain ⟨k, t, h1, h2, h3⟩ := hg u hu
      exact ⟨k, t, by omega, by omega, h3⟩
    · intro j h1 h2
      rcases Nat.eq_or_lt_of_le h1 with rfl | hlt
      · exact isNotExist_false_mono env _ w.fs _ (fun c hc => hmono _ c hc) h
      · exact hex j hlt (by omega)
  · intro n pID pages w e' w2 h hd hr
    obtain rfl : e' = e := by simpa using hr
    exact ⟨0, w.record (.stat (pageFile s pID)), [.stat (pageFile s pID)], by omega, by simp,
      rfl, by simp [statPaths], by simp, h, hd, fun _ _ hc => hc, fun j h1 h2 => by omega⟩
  · rintro n pID pages w w2 h hd ih hr
    obtain ⟨body, rfl⟩ := downloadPage_ok_world hd
    obtain ⟨m, wk, newk, hm, hp, ht, hst, hg, hmiss, hd', hmono, hex⟩ := ih hr
    have hidx : pID + 1 + m = pID + (m + 1) := by omega
    rw [hidx] at hmiss hd'
    refine ⟨m + 1, wk, .stat (pageFile s pID) :: 
      .get (resumeIMG s pID resumeExt
        (env.now (w.record (.stat (pageFile s pID))).trace.length) resumeSize) :: .create (pageFile s pID)
        :: .copy (pageFile s pID) body :: newk, by omega,
      by simp [hp, List.range'_succ], by rw [ht]; simp [World.record],
      by rw [List.range'_succ (n := m + 1)]; simp [statPaths, hst], ?_, hmiss, hd',
      fun path c hc => hmono path c ?_, ?_⟩
    · intro u hu
      simp only [List.mem_cons, reduceCtorEq, false_or, Effect.get.injEq] at hu
      rcases hu with rfl | hu
      · exact ⟨pID, _, le_refl _, by omega, rfl⟩
      · obtain ⟨k, t, h1, h2, h3⟩ := hg u hu
        exact ⟨k, t, by omega, by omega, h3⟩
    · have hne : path ≠ pageFile s pID := by
        rintro rfl
        rw [((isNotExist_true_iff env _ _).1 h).2] at hc
        cases hc
      simpa [Function.update_noteq hne, World.record] using hc
    · intro j h1 h2
      rcases Nat.eq_or_lt_of_le h1 with rfl | hlt
      · rw [isNotExist_false_iff]
        right
        rw [hmono _ body (by simp)]; simp
      · exact hex j hlt (by omega)

theorem downloadPage_acquires {R : Type} (env : Env R) (u file : String) (w : World) :
    ∃ new, (downloadPage env u file w).2.trace = w.trace ++ new
      ∧ ∀ x ∈ new, x.acquires = true := by
  rcases downloadPage_cases env u file w
    with ⟨e, he⟩ | ⟨e, he⟩ | ⟨e, st, b, n, -, he⟩ | ⟨st, b, -, he⟩
  · exact ⟨[.get u], by rw [he], by simp [Effect.acquires]⟩
  · exact ⟨[.get u, .create file], by rw [he], by simp [Effect.acquires]⟩
  · exact ⟨[.get u, .create file, .copy file (b.take n)], by rw [he],
      by simp [Effect.acquires]⟩
  · exact ⟨[.get u, .create file, .copy file b], by rw [he], by simp [Effect.acquires]⟩

theorem loop_acquires {R : Type} (env : Env R) (s : String) (n pID : Nat)
    (pages : List String) (w : World) :
    ∃ new, (getResumeImagesLoop env s n pID pages w).2.2.trace = w.trace ++ new
      ∧ ∀ x ∈ new, x.acquires = true := by
  refine loop_induction env s
    (fun _ _ _ w r => ∃ new, r.2.2.trace = w.trace ++ new ∧ ∀ x ∈ new, x.acquires = true)
    ?_ ?_ ?_ ?_ n pID pages w
  · intro pID pages w
    exact ⟨[], by simp, by simp⟩
  · rintro n pID pages w - ⟨new, ht, ha⟩
    refine ⟨.stat (pageFile s pID) :: new, by rw [ht]; simp [World.record], ?_⟩
    intro x hx
    rcases List.mem_cons.1 hx with rfl | hx
    · rfl
    · exact ha x hx
  · intro n pID pages w e w2 h hd
    obtain ⟨new, ht, ha⟩ := downloadPage_acquires env
      (resumeIMG s pID resumeExt (env.now (w.record (.stat (pageFile s pID))).trace.length)
        resumeSize) (pageFile s pID) (w.record (.stat (pageFile s pID)))
    rw [hd] at ht
    refine ⟨.stat (pageFile s pID) :: new, by
      show w2.trace = _
      rw [ht]; simp [World.record], ?_⟩
    intro x hx
    rcases List.mem_cons.1 hx with rfl | hx
    · rfl
    · exact ha x hx
  · rintro n pID pages w w2 h hd ⟨new, ht, ha⟩
    obtain ⟨new2, ht2, ha2⟩ := downloadPage_acquires env
      (resumeIMG s pID resumeExt (env.now (w.record (.stat (pageFile s pID))).trace.length)
        resumeSize) (pageFile s pID) (w.record (.stat (pageFile s pID)))
    rw [hd] at ht2
    refine ⟨.stat (pageFile s pID) :: (new2 ++ new), by
      rw [ht]
      have : w2.trace = (w.record (.stat (pageFile s pID))).trace ++ new2 := ht2
      rw [this]; simp [World.record], ?_⟩
    intro x hx
    simp only [List.mem_cons, List.mem_append] at hx
    rcases hx with rfl | hx | hx
    · rfl
    · exact ha2 x hx
    · exact ha x hx

theorem getResumeImages_of_pos {R : Type} (env : Env R) (s : String) (p : Int) (w : World)
    (hp : 1 ≤ p) :
    getResumeImages env s p w = getResumeImagesLoop env s p.toNat 1 [] w := by
  unfold getResumeImages
  rw [if_neg (by omega)]

theorem getResumeImages_fs {R : Type} (env : Env R) (s : String) (p : Int) (w : World)
    (path : String) (c : List Nat) (h : w.fs path = some c) :
    (getResumeImages env s p w).2.2.fs path = some c := by
  unfold getResumeImages
  split_ifs
  · exact h
  · exact (loop_fs env s _ _ _ w).1 path c h

theorem main_of_images_error {R : Type} [Sub R] [Zero R] (env : Env R) (f : Flags)
    (w0 w w' : World) (info : metaInfo R) (pages : List String) (e : String)
    (hf : (readFlags env f w0).1 = true)
    (hm : getMeta env (readFlags env f w0).2.1.sid (readFlags env f w0).2.2 = (.ok info, w))
    (hr : getResumeImages env (readFlags env f w0).2.1.sid info.Pages.length w
      = (pages, some e, w')) :
    main env f w0 = (.fatal e, w', []) := by
  have hs : (readFlags env f w0).2.1.sid ≠ "" := by
    obtain ⟨s, u, hs, -, heq⟩ := readFlags_accept env f w0 hf
    rw [heq env w0]
    exact reSID_ne_empty hs
  unfold main
  rw [if_neg (by simp [hf, hs])]
  simp only [hm, hr]

/-! ## Further lemmas on the pipeline -/

theorem isNotExist_update_ne {R : Type} (env : Env R) {path file : String}
    (hne : path ≠ file) (fs : FS) (v : Option (List Nat)) :
    isNotExist env path (Function.update fs file v) = isNotExist env path fs := by
  simp [isNotExist, Function.update_noteq hne]

theorem main_of_reject {R : Type} [Sub R] [Zero R] (env : Env R) (f : Flags) (w : World)
    (h : (readFlags env f w).1 = false) :
    main env f w = (Exit.code exitCodeMisuseArgs, (readFlags env f w).2.2, []) := by
  unfold main
  simp [h]

theorem main_not_misuse {R : Type} [Sub R] [Zero R] (env : Env R) (f : Flags) (w : World)
    (h : (readFlags env f w).1 = true) (hs : (readFlags env f w).2.1.sid ≠ "") (n : Nat) :
    (main env f w).1 ≠ Exit.code n := by
  unfold main
  rw [if_neg (by simp [h, hs])]
  split
  · simp
  · split
    · simp
    · split <;> simp

theorem extractArg_of_source (f : Flags) (s : String) (hs : reSID s = true)
    (hsrc : (f.arg0 = s ∧ reID s = false)
      ∨ (f.sid = s ∧ (f.arg0 = "" ∨
          (reID f.arg0 = false ∧ reIDURL f.arg0 = false ∧ reSID f.arg0 = false)))) :
    (extractArg f).1 = true ∧ (extractArg f).2.sid = s := by
  unfold extractArg
  rcases hsrc with ⟨ha, hd⟩ | ⟨hf, ha | ⟨h1, h2, h3⟩⟩
  · have hne : s ≠ "" := reSID_ne_empty hs
    simp [hne, ha, hd, reIDURL_of_reSID hs, hs]
  · simp [ha, hf]
  · by_cases h0 : f.arg0 = ""
    · simp [h0, hf]
    · simp only [h0, h1, h2, h3, if_false, Bool.false_eq_true]
      split_ifs <;> simp [hf]

theorem loop_requests {R : Type} (env : Env R) (s : String) (n pID : Nat)
    (pages : List String) (w : World) :
    ∃ new, (getResumeImagesLoop env s n pID pages w).2.2.trace = w.trace ++ new
      ∧ (∀ u, Effect.get u ∈ new → ∃ k t, pID ≤ k ∧ k < pID + n
          ∧ u = resumeIMG s k resumeExt t resumeSize ∧ isNotExist env (pageFile s k) w.fs = true)
      ∧ (∀ k, pID ≤ k → k < pID + n →
          ((getResumeImagesLoop env s n pID pages w).2.1 = none
            ∨ k ≤ pID + ((getResumeImagesLoop env s n pID pages w).1.length - pages.length)) →
          isNotExist env (pageFile s k) w.fs = true →
            ∃ t, Effect.get (resumeIMG s k resumeExt t resumeSize) ∈ new) := by
  refine loop_induction env s
    (fun n pID pages w r => ∃ new, r.2.2.trace = w.trace ++ new
      ∧ (∀ u, Effect.get u ∈ new → ∃ k t, pID ≤ k ∧ k < pID + n
          ∧ u = resumeIMG s k resumeExt t resumeSize ∧ isNotExist env (pageFile s k) w.fs = true)
      ∧ (∀ k, pID ≤ k → k < pID + n →
          (r.2.1 = none ∨ k ≤ pID + (r.1.length - pages.length)) →
          isNotExist env (pageFile s k) w.fs = true →
            ∃ t, Effect.get (resumeIMG s k resumeExt t resumeSize) ∈ new))
    ?_ ?_ ?_ ?_ n pID pages w
  · intro pID pages w
    exact ⟨[], by simp, by simp, fun k h1 h2 => by omega⟩
  · rintro n pID pages w h ⟨new, ht, hg, hs⟩
    obtain ⟨m, -, hlen, -, -⟩ := loop_pages env s n (pID + 1) (pages ++ [pageFile s pID])
      (w.record (.stat (pageFile s pID)))
    have hlen' := congrArg List.length hlen
    simp only [List.length_append, List.length_singleton, List.length_map,
      List.length_range'] at hlen'
    refine ⟨.stat (pageFile s pID) :: new, by rw [ht]; simp [World.record], ?_, ?_⟩
    · intro u hu
      simp only [List.mem_cons, reduceCtorEq, false_or] at hu
      obtain ⟨k, t, h1, h2, h3, h4⟩ := hg u hu
      exact ⟨k, t, by omega, by omega, h3, h4⟩
    · intro k h1 h2 hv hk
      rcases Nat.eq_or_lt_of_le h1 with rfl | hlt
      · exact absurd hk (by simp [h])
      · obtain ⟨t, ht'⟩ := hs k hlt (by omega)
          (hv.imp id (fun hv => by simp only [List.length_append, List.length_singleton]; omega))
          hk
        exact ⟨t, List.mem_cons_of_mem _ ht'⟩
  · intro n pID pages w e w2 h hd
    obtain ⟨tail, ht, hng, -, -⟩ := downloadPage_fail_world hd
    refine ⟨.stat (pageFile s pID) :: 
      .get (resumeIMG s pID resumeExt
        (env.now (w.record (.stat (pageFile s pID))).trace.length) resumeSize) :: tail,
      by rw [ht]; simp [World.record], ?_, ?_⟩
    · intro u hu
      simp only [List.mem_cons, reduceCtorEq, false_or, Effect.get.injEq] at hu
      rcases hu with rfl | hu
      · exact ⟨pID, _, le_refl _, by omega, rfl, h⟩
      · exact absurd hu (hng u)
    · intro k h1 h2 hv hk
      have hkp : k = pID := by
        rcases hv with hv | hv
        · cases hv
        · simp only [Nat.sub_self, Nat.add_zero] at hv
          omega
      subst hkp
      exact ⟨env.now (w.record (.stat (pageFile s k))).trace.length, by simp⟩
  · rintro n pID pages w w2 h hd ⟨new, ht, hg, hs⟩
    obtain ⟨body, rfl⟩ := downloadPage_ok_world hd
    obtain ⟨m, -, hlen, -, -⟩ := loop_pages env s n (pID + 1) (pages ++ [pageFile s pID])
      ⟨Function.update (w.record (.stat (pageFile s pID))).fs (pageFile s pID) (some body),
        (w.record (.stat (pageFile s pID))).trace ++
          [.get (resumeIMG s pID resumeExt
              (env.now (w.record (.stat (pageFile s pID))).trace.length) resumeSize),
            .create (pageFile s pID), .copy (pageFile s pID) body]⟩
    have hlen' := congrArg List.length hlen
    simp only [List.length_append, List.length_singleton, List.length_map,
      List.length_range'] at hlen'
    refine ⟨.stat (pageFile s pID) :: 
      .get (resumeIMG s pID resumeExt
        (env.now (w.record (.stat (pageFile s pID))).trace.length) resumeSize) :: .create (pageFile s pID)
      :: .copy (pageFile s pID) body :: new, by rw [ht]; simp [World.record], ?_, ?_⟩
    · intro u hu
      simp only [List.mem_cons, reduceCtorEq, false_or, Effect.get.injEq] at hu
      rcases hu with rfl | hu
      · exact ⟨pID, _, le_refl _, by omega, rfl, h⟩
      · obtain ⟨k, t, h1, h2, h3, h4⟩ := hg u hu
        refine ⟨k, t, by omega, by omega, h3, ?_⟩
        by_cases hk : pageFile s k = pageFile s pID
        · exfalso
          have h5 : (Function.update w.fs (pageFile s pID) (some body)) (pageFile s k) = none :=
            ((isNotExist_true_iff env _ _).1 h4).2
          rw [hk, Function.update_same] at h5
          cases h5
        · have h5 : isNotExist env (pageFile s k)
              (Function.update w.fs (pageFile s pID) (some body)) = true := h4
          rwa [isNotExist_update_ne env hk] at h5
    · intro k h1 h2 hv hk
      rcases Nat.eq_or_lt_of_le h1 with rfl | hlt
      · exact ⟨env.now (w.record (.stat (pageFile s pID))).trace.length, by simp⟩
      · have hne : pageFile s k ≠ pageFile s pID := fun hc => by
          have := pageFile_injective hc; omega
        obtain ⟨t, ht'⟩ := hs k hlt (by omega)
          (hv.imp id (fun hv => by simp only [List.length_append, List.length_singleton]; omega))
          (by
            show isNotExist env (pageFile s k)
              (Function.update w.fs (pageFile s pID) (some body)) = true
            rw [isNotExist_update_ne env hne]
            exact hk)
        exact ⟨t, by simp [ht']⟩

/-! ## Lemmas on PDF composition -/

theorem addLinks_eq {R : Type} [Sub R] (pageSize : Rect R) (links : List (metaLink R)) (pdf : List (PdfCall R)) :
    addLinks pageSize links pdf = pdf ++ linkCalls pageSize links := by
  induction links generalizing pdf with
  | nil => simp [addLinks, linkCalls]
  | cons l rest ih => simp [addLinks, linkCalls, ih]

theorem linkCalls_here {R : Type} [Sub R] (pageSize : Rect R) (links : List (metaLink R)) (t : List (PdfCall R)) :
    imagesHere (linkCalls pageSize links ++ t) = imagesHere t
    ∧ linksHere (linkCalls pageSize links ++ t)
        = links.map (linkAnnot pageSize.H) ++ linksHere t
    ∧ pdfPages (linkCalls pageSize links ++ t) = pdfPages t
    ∧ allLinks (linkCalls pageSize links ++ t)
        = links.map (linkAnnot pageSize.H) ++ allLinks t := by
  induction links with
  | nil => simp [linkCalls]
  | cons l rest ih =>
    obtain ⟨h1, h2, h3, h4⟩ := ih
    simp only [linkCalls] at h1 h2 h3 h4
    simp [linkCalls, imagesHere, linksHere, pdfPages, allLinks, h1, h2, h3, h4, linkAnnot]

theorem writePdf_here {R : Type} (l : List (PdfCall R)) (path : String) :
    imagesHere (l ++ [.WritePdf path]) = imagesHere l
    ∧ linksHere (l ++ [.WritePdf path]) = linksHere l
    ∧ pdfPages (l ++ [.WritePdf path]) = pdfPages l
    ∧ allLinks (l ++ [.WritePdf path]) = allLinks l := by
  induction l with
  | nil => simp [imagesHere, linksHere, pdfPages, allLinks]
  | cons c rest ih =>
    obtain ⟨h1, h2, h3, h4⟩ := ih
    cases c <;> simp [imagesHere, linksHere, pdfPages, allLinks, h1, h2, h3, h4]

theorem generatePDFLoop_acc {R : Type} [Sub R] [Zero R] (env : Env R) (info : metaInfo R) (fs : FS)
    (images : List String) :
    ∀ (i : Nat) (pdf : List (PdfCall R)),
      generatePDFLoop env info fs images i pdf
        = ((generatePDFLoop env info fs images i []).1,
            pdf ++ (generatePDFLoop env info fs images i []).2) := by
  induction images with
  | nil => intro i pdf; simp [generatePDFLoop]
  | cons image rest ih =>
    intro i pdf
    simp only [generatePDFLoop]
    cases hp : info.Pages[i]? with
    | none => simp
    | some page =>
      simp only
      cases hi : env.image image fs with
      | some e => simp
      | none =>
        simp only
        rw [ih (i + 1) (addLinks _ _ (pdf ++ _ ++ _)), ih (i + 1) (addLinks _ _ ([] ++ _ ++ _))]
        simp [addLinks_eq]

theorem generatePDFLoop_cons {R : Type} [Sub R] [Zero R] (env : Env R) (info : metaInfo R) (fs : FS) (image : String)
    (rest : List String) (i : Nat) (page : metaPageInfo R) (hp : info.Pages[i]? = some page)
    (hi : env.image image fs = none) :
    generatePDFLoop env info fs (image :: rest) i []
      = ((generatePDFLoop env info fs rest (i + 1) []).1,
          .AddPageWithOption ⟨page.ViewPort.Width, page.ViewPort.Height⟩
            :: .Image image 0 0 ⟨page.ViewPort.Width, page.ViewPort.Height⟩
            :: (linkCalls ⟨page.ViewPort.Width, page.ViewPort.Height⟩ page.Links
                ++ (generatePDFLoop env info fs rest (i + 1) []).2)) := by
  rw [generatePDFLoop]
  simp only [hp, hi]
  rw [generatePDFLoop_acc]
  simp [addLinks_eq]


theorem generatePDFLoop_here {R : Type} [Sub R] [Zero R] (env : Env R) (info : metaInfo R)
    (fs : FS) (images : List String) (i : Nat) :
    imagesHere (generatePDFLoop env info fs images i []).2 = []
    ∧ linksHere (generatePDFLoop env info fs images i []).2 = [] := by
  cases images with
  | nil => simp [generatePDFLoop, imagesHere, linksHere]
  | cons image rest =>
    cases hp : info.Pages[i]? with
    | none => simp [generatePDFLoop, hp, imagesHere, linksHere]
    | some page =>
      cases hi : env.image image fs with
      | some e => simp [generatePDFLoop, hp, hi, imagesHere, linksHere]
      | none =>
        rw [generatePDFLoop_cons env info fs image rest i page hp hi]
        simp [imagesHere, linksHere]

theorem generatePDFLoop_cons_pages {R : Type} [Sub R] [Zero R] (env : Env R)
    (info : metaInfo R) (fs : FS) (image : String) (rest : List String) (i : Nat)
    (page : metaPageInfo R) (hp : info.Pages[i]? = some page)
    (hi : env.image image fs = none) :
    pdfPages (generatePDFLoop env info fs (image :: rest) i []).2
      = expectedPage page image :: pdfPages (generatePDFLoop env info fs rest (i + 1) []).2
    ∧ allLinks (generatePDFLoop env info fs (image :: rest) i []).2
      = page.Links.map (linkAnnot page.ViewPort.Height)
          ++ allLinks (generatePDFLoop env info fs rest (i + 1) []).2 := by
  obtain ⟨h1, h2, h3, h4⟩ := linkCalls_here ⟨page.ViewPort.Width, page.ViewPort.Height⟩
    page.Links (generatePDFLoop env info fs rest (i + 1) []).2
  obtain ⟨h5, h6⟩ := generatePDFLoop_here env info fs rest (i + 1)
  rw [generatePDFLoop_cons env info fs image rest i page hp hi]
  simp [pdfPages, imagesHere, linksHere, allLinks, h1, h2, h3, h4, h5, h6, expectedPage]

theorem generatePDFLoop_page {R : Type} [Sub R] [Zero R] (env : Env R) (info : metaInfo R)
    (fs : FS) (images : List String) :
    ∀ (i j : Nat) (img : String) (page : metaPageInfo R),
      images[j]? = some img → info.Pages[i + j]? = some page →
      (∀ k img', k ≤ j → images[k]? = some img' → env.image img' fs = none) →
      (pdfPages (generatePDFLoop env info fs images i []).2)[j]?
        = some (expectedPage page img) := by
  induction images with
  | nil => intro i j img page h; simp at h
  | cons image rest ih =>
    intro i j img page him hp hok
    have hlt : i < info.Pages.length := by
      have := (List.getElem?_eq_some_iff.1 hp).1
      omega
    have hp0 : info.Pages[i]? = some info.Pages[i] := List.getElem?_eq_getElem hlt
    have hi0 : env.image image fs = none := hok 0 image (Nat.zero_le _) (by simp)
    rw [(generatePDFLoop_cons_pages env info fs image rest i _ hp0 hi0).1]
    cases j with
    | zero =>
      simp only [List.getElem?_cons_zero, Option.some.injEq] at him
      simp only [Nat.add_zero] at hp
      rw [hp0] at hp
      simp only [Option.some.injEq] at hp
      simp [him, hp]
    | succ j =>
      simp only [List.getElem?_cons_succ] at him ⊢
      refine ih (i + 1) j img page him (by rw [← hp]; congr 1; omega) ?_
      intro k img' hk hk'
      exact hok (k + 1) img' (by omega) (by simpa using hk')

theorem generatePDFLoop_allLinks {R : Type} [Sub R] [Zero R] (env : Env R)
    (info : metaInfo R) (fs : FS) (images : List String) :
    ∀ i : Nat, allLinks (generatePDFLoop env info fs images i []).2
      = ((pdfPages (generatePDFLoop env info fs images i []).2).map (·.links)).flatten := by
  induction images with
  | nil => intro i; simp [generatePDFLoop, allLinks, pdfPages]
  | cons image rest ih =>
    intro i
    cases hp : info.Pages[i]? with
    | none => simp [generatePDFLoop, hp, allLinks, pdfPages]
    | some page =>
      cases hi : env.image image fs with
      | some e => simp [generatePDFLoop, hp, hi, allLinks, pdfPages, linksHere]
      | none =>
        obtain ⟨h1, h2⟩ := generatePDFLoop_cons_pages env info fs image rest i page hp hi
        rw [h1, h2, ih (i + 1)]
        simp [expectedPage]

theorem generatePDFLoop_no_panic {R : Type} [Sub R] [Zero R] (env : Env R)
    (info : metaInfo R) (fs : FS) (images : List String) :
    ∀ i : Nat, i + images.length ≤ info.Pages.length →
      (generatePDFLoop env info fs images i []).1 ≠ .panicked := by
  induction images with
  | nil => intro i _; simp [generatePDFLoop]
  | cons image rest ih =>
    intro i hlen
    simp only [List.length_cons] at hlen
    have hp0 : info.Pages[i]? = some info.Pages[i] := List.getElem?_eq_getElem (by omega)
    cases hi : env.image image fs with
    | some e => simp [generatePDFLoop, hp0, hi]
    | none =>
      rw [generatePDFLoop_cons env info fs image rest i _ hp0 hi]
      exact ih (i + 1) (by omega)

theorem generatePDFLoop_all {R : Type} [Sub R] [Zero R] (env : Env R) (info : metaInfo R)
    (fs : FS) (images : List String) :
    ∀ i : Nat, i + images.length ≤ info.Pages.length →
      (∀ img ∈ images, env.image img fs = none) →
      (generatePDFLoop env info fs images i []).1 = .ok
      ∧ pdfPages (generatePDFLoop env info fs images i []).2
          = List.zipWith expectedPage (info.Pages.drop i) images := by
  induction images with
  | nil => intro i _ _; simp [generatePDFLoop, pdfPages]
  | cons image rest ih =>
    intro i hlen hok
    simp only [List.length_cons] at hlen
    have hlt : i < info.Pages.length := by omega
    have hp0 : info.Pages[i]? = some info.Pages[i] := List.getElem?_eq_getElem hlt
    have hi0 : env.image image fs = none := hok image (by simp)
    obtain ⟨h1, h2⟩ := ih (i + 1) (by omega) (fun img h => hok img (by simp [h]))
    refine ⟨?_, ?_⟩
    · rw [generatePDFLoop_cons env info fs image rest i _ hp0 hi0]
      exact h1
    · rw [(generatePDFLoop_cons_pages env info fs image rest i _ hp0 hi0).1, h2,
        List.drop_eq_getElem_cons hlt]
      rfl

theorem generatePDF_pdf {R : Type} [Sub R] [Zero R] (env : Env R) (name : String)
    (info : metaInfo R) (images : List String) (w : World) (first : metaPageInfo R)
    (hp : info.Pages[0]? = some first) :
    pdfPages (generatePDF env name info images w).2.2
      = pdfPages (generatePDFLoop env info w.fs images 0 []).2
    ∧ allLinks (generatePDF env name info images w).2.2
      = allLinks (generatePDFLoop env info w.fs images 0 []).2
    ∧ ((generatePDFLoop env info w.fs images 0 []).1 ≠ .panicked →
        (generatePDF env name info images w).1 ≠ .panicked) := by
  unfold generatePDF
  simp only [hp]
  rw [generatePDFLoop_acc]
  obtain ⟨-, -, h3, h4⟩ := writePdf_here (generatePDFLoop env info w.fs images 0 []).2 name
  cases ho : (generatePDFLoop env info w.fs images 0 []).1 with
  | ok =>
    simp only [List.singleton_append]
    cases hw : (env.writePdf (.Start ⟨first.ViewPort.Width, first.ViewPort.Height⟩
      :: (generatePDFLoop env info w.fs images 0 []).2) name w.fs).1 with
    | none =>
      simp [h3, h4, pdfPages, allLinks]
    | some e =>
      simp [h3, h4, pdfPages, allLinks]
  | err e => simp [pdfPages, allLinks]
  | panicked => simp [pdfPages, allLinks]

/-! ## The claims -/

/-- Claim C1. When `generatePDF` composes page `i` (the image of page `i` and of every
earlier page is placed without error), page `i` of the document carries exactly
one annotation per link of `info.Pages[i]`, in metadata order, each with the
target of the link at `(left, H - top - height, width, height)` where `H` is the
viewport height of page `i` itself; the page has the viewport size and the
image of page `i`. No annotation is registered outside the pages. -/
theorem generatePDF_links {R : Type} [Sub R] [Zero R] (env : Env R) (name : String)
    (info : metaInfo R) (images : List String) (w : World) (i : Nat) (img : String)
    (page : metaPageInfo R) (him : images[i]? = some img) (hp : info.Pages[i]? = some page)
    (hok : ∀ k img', k ≤ i → images[k]? = some img' → env.image img' w.fs = none) :
    (∃ pg, (pdfPages (generatePDF env name info images w).2.2)[i]? = some pg
      ∧ pg.links = page.Links.map (fun l =>
          (⟨l.URL, l.Left, page.ViewPort.Height - l.Top - l.Height, l.Width, l.Height⟩ : Annot R))
      ∧ pg.size = ⟨page.ViewPort.Width, page.ViewPort.Height⟩ ∧ pg.images = [img])
    ∧ allLinks (generatePDF env name info images w).2.2
      = ((pdfPages (generatePDF env name info images w).2.2).map (·.links)).flatten := by
  have hlt : 0 < info.Pages.length := by
    have := (List.getElem?_eq_some_iff.1 hp).1
    omega
  obtain ⟨h1, h2, -⟩ := generatePDF_pdf env name info images w _
    (List.getElem?_eq_getElem hlt)
  rw [h1, h2]
  refine ⟨⟨expectedPage page img, ?_, rfl, rfl, rfl⟩, generatePDFLoop_allLinks env info w.fs images 0⟩
  exact generatePDFLoop_page env info w.fs images 0 i img page him (by simpa using hp) hok


/-- Witness of claim C1, the scenario of the specification: one page of 800 by
1200 with the link `https://x.test` at `(0, 0)` of size 100 by 50 yields the
annotation `(0, 1150, 100, 50)`. -/
theorem generatePDF_links_witness :
    ∃ pg, (pdfPages (generatePDF plainEnv "abc123.pdf" scenarioInfo ["abc123-1.png"]
        emptyWorld).2.2)[0]? = some pg
      ∧ pg.links = [⟨"https://x.test", 0, 1150, 100, 50⟩] :=
  (generatePDF_links plainEnv "abc123.pdf" scenarioInfo ["abc123-1.png"] emptyWorld 0
    "abc123-1.png" _ (by rfl) (by rfl) (by intro k img' _ _; rfl)).1.imp
    (fun _ h => ⟨h.1, h.2.1.trans (by decide)⟩)


/-- Counterexample to claim C2 as stated: two pages whose images are both on
disk, so that no download is needed and `getResumeImages` returns both paths;
`pdf.Image` rejects the first file, `generatePDF` returns that error and the
document has one page, not two. -/
theorem generatePDF_corrupt_image :
    twoPages.Pages.length = 2
    ∧ getResumeImages corruptImageEnv "abc" 2 cachedWorld
        = (["abc-1.png", "abc-2.png"], none,
            ⟨cachedWorld.fs, [.stat "abc-1.png", .stat "abc-2.png"]⟩)
    ∧ (generatePDF corruptImageEnv "abc.pdf" twoPages ["abc-1.png", "abc-2.png"]
        ⟨cachedWorld.fs, [.stat "abc-1.png", .stat "abc-2.png"]⟩).1
        = .err "png: invalid format"
    ∧ (pdfPages (generatePDF corruptImageEnv "abc.pdf" twoPages ["abc-1.png", "abc-2.png"]
        ⟨cachedWorld.fs, [.stat "abc-1.png", .stat "abc-2.png"]⟩).2.2).length = 1 := by
  refine ⟨by decide, ?_, by decide, by decide⟩
  show getResumeImages corruptImageEnv "abc" 2 cachedWorld = _
  rfl


/-- Claim C2, amended. For metadata with `N ≥ 1` pages, when `getResumeImages`
returns without error it returns exactly `N` paths, the `k`-th being
`<sid>-<k>.png`, and `generatePDF` on that metadata and those paths never
indexes `info.Pages` out of range. When moreover every image placement
succeeds, the document has exactly `N` pages, the `k`-th sized to the `k`-th
viewport and backed by the `k`-th image. -/
theorem pipeline_pages {R : Type} [Sub R] [Zero R] (env : Env R) (s name : String)
    (info : metaInfo R) (w w' : World) (pages : List String)
    (hN : 1 ≤ info.Pages.length)
    (hr : getResumeImages env s info.Pages.length w = (pages, none, w')) :
    pages = (List.range' 1 info.Pages.length).map (pageFile s)
    ∧ pages.length = info.Pages.length
    ∧ (∀ k, 1 ≤ k → k ≤ info.Pages.length → pages[k - 1]? = some (pageFile s k))
    ∧ (generatePDF env name info pages w').1 ≠ .panicked
    ∧ ((∀ img ∈ pages, env.image img w'.fs = none) →
        pdfPages (generatePDF env name info pages w').2.2
          = List.zipWith expectedPage info.Pages pages
        ∧ (pdfPages (generatePDF env name info pages w').2.2).length = info.Pages.length
        ∧ ∀ k page, 1 ≤ k → info.Pages[k - 1]? = some page →
            (pdfPages (generatePDF env name info pages w').2.2)[k - 1]?
              = some ⟨⟨page.ViewPort.Width, page.ViewPort.Height⟩, [pageFile s k],
                  page.Links.map (linkAnnot page.ViewPort.Height)⟩) := by
  have hloop := getResumeImages_of_pos env s info.Pages.length w (by omega)
  rw [hloop] at hr
  have hok : (getResumeImagesLoop env s (info.Pages.length : Int).toNat 1 [] w).2.1 = none := by
    rw [hr]
  obtain ⟨m, -, hpg, hmn, -⟩ := loop_pages env s (info.Pages.length : Int).toNat 1 [] w
  rw [hr, hmn hok] at hpg
  simp only [List.nil_append, Int.toNat_ofNat] at hpg
  have hlen : pages.length = info.Pages.length := by rw [hpg]; simp
  have hk : ∀ k, 1 ≤ k → k ≤ info.Pages.length → pages[k - 1]? = some (pageFile s k) := by
    intro k h1 h2
    rw [hpg, List.getElem?_map, List.getElem?_range' _ _ (by omega)]
    simp only [Option.map_some', Option.some.injEq]
    congr 1
    omega
  obtain ⟨h1, -, h3⟩ := generatePDF_pdf env name info pages w' _
    (List.getElem?_eq_getElem (show 0 < info.Pages.length by omega))
  refine ⟨hpg, hlen, hk,
    h3 (generatePDFLoop_no_panic env info w'.fs pages 0 (by omega)), fun himg => ?_⟩
  have hall := (generatePDFLoop_all env info w'.fs pages 0 (by omega) himg).2
  simp only [List.drop_zero] at hall
  rw [h1, hall]
  refine ⟨rfl, by simp [hlen], fun k page hk1 hpage => ?_⟩
  have hklt : k - 1 < info.Pages.length := (List.getElem?_eq_some_iff.1 hpage).1
  rw [List.getElem?_zipWith, hpage, hk k hk1 (by omega)]
  rfl


/-- Witness of claim C2: two pages, nothing on disk, no failure. -/
theorem pipeline_pages_witness :
    (getResumeImages plainEnv "abc" (twoPages.Pages.length : Int) emptyWorld).1
      = (List.range' 1 twoPages.Pages.length).map (pageFile "abc") :=
  (pipeline_pages plainEnv "abc" "abc.pdf" twoPages emptyWorld
    (getResumeImages plainEnv "abc" (twoPages.Pages.length : Int) emptyWorld).2.2
    (getResumeImages plainEnv "abc" (twoPages.Pages.length : Int) emptyWorld).1
    (by decide) (Prod.ext rfl (Prod.ext (by decide) rfl))).1


/-- Claim C3. For `p < 1`, `getResumeImages` returns the error and no path and
leaves the world as it is: no cache file is checked and nothing is requested.
When the metadata has no page, `main` ends with that error in the world reached
right after the metadata fetch, with no call on a PDF document: neither
`generatePDF` (so `info.Pages[0]` is not evaluated) nor `cleanup` runs. -/
theorem getResumeImages_no_pages {R : Type} [Sub R] [Zero R] (env : Env R) (s : String)
    (p : Int) (f : Flags) (w : World) :
    (p < 1 → getResumeImages env s p w = ([], some "required one or more pages", w))
    ∧ (∀ info w1, (readFlags env f w).1 = true →
        getMeta env (readFlags env f w).2.1.sid (readFlags env f w).2.2 = (.ok info, w1) →
        info.Pages = [] →
        main env f w = (.fatal "required one or more pages", w1, [])) := by
  constructor
  · intro hp
    unfold getResumeImages
    rw [if_pos hp]
  · intro info w1 hf hm h0
    refine main_of_images_error env f w w1 w1 info [] _ hf hm ?_
    unfold getResumeImages
    rw [if_pos (by simp [h0])]


/-- Witness of claim C3: zero pages. -/
theorem getResumeImages_no_pages_witness :
    getResumeImages plainEnv "abc" 0 emptyWorld
      = ([], some "required one or more pages", emptyWorld) :=
  (getResumeImages_no_pages plainEnv "abc" 0 { noFlags with sid := "abc" }
    emptyWorld).1 (by decide)


/-- Counterexample to claim C4 as stated: the output path `plain/out.pdf` does
not exist (`plain` is a regular file), `os.Stat` fails on it with an error
other than "not exist", and `readFlags` rejects without `-y`; where `os.Stat`
does not fail, the same arguments are accepted. -/
theorem readFlags_stat_error :
    (readFlags statErrEnv { noFlags with sid := "abc", pdfFileName := "plain/out" }
        plainFileWorld).2.1.pdfFileName = "plain/out.pdf"
    ∧ plainFileWorld.fs "plain/out.pdf" = none
    ∧ (readFlags statErrEnv { noFlags with sid := "abc", pdfFileName := "plain/out" }
        plainFileWorld).1 = false
    ∧ (readFlags plainEnv { noFlags with sid := "abc", pdfFileName := "plain/out" }
        plainFileWorld).1 = true := by
  decide

/-- Claim C4, amended. When the output path that `readFlags` resolves exists,
or `os.Stat` fails on it with an error other than "not exist", and `-y` is not
set, `readFlags` returns false and `main` exits with status 2; the filesystem
is unchanged and the only possible effect is the `os.Stat` of the output path.
Conversely, when `-y` is set or `os.Stat` reports that the path does not
exist, arguments that are accepted in some environment and world are accepted
in this one: the check does not reject. -/
theorem readFlags_existing_output {R : Type} [Sub R] [Zero R] (env : Env R) (f : Flags)
    (w : World) :
    (f.overWrite = false →
      (w.fs (readFlags env f w).2.1.pdfFileName ≠ none
        ∨ env.statErr (readFlags env f w).2.1.pdfFileName = true) →
      (readFlags env f w).1 = false
      ∧ main env f w = (Exit.code exitCodeMisuseArgs, (readFlags env f w).2.2, [])
      ∧ (readFlags env f w).2.2.fs = w.fs
      ∧ ((readFlags env f w).2.2.trace = w.trace
          ∨ (readFlags env f w).2.2.trace
              = w.trace ++ [Effect.stat (readFlags env f w).2.1.pdfFileName]))
    ∧ ((f.overWrite = true
          ∨ (env.statErr (readFlags env f w).2.1.pdfFileName = false
              ∧ w.fs (readFlags env f w).2.1.pdfFileName = none)) →
        ∀ (env2 : Env R) (w2 : World), (readFlags env2 f w2).1 = true →
          (readFlags env f w).1 = true) := by
  constructor
  · intro hy hex
    have hrej : (readFlags env f w).1 = false := by
      by_contra hc
      have hc' : (readFlags env f w).1 = true := by simpa using hc
      obtain ⟨s, u, -, -, heq⟩ := readFlags_accept env f w hc'
      rw [heq env w] at hc' hex
      simp only [hy, Bool.false_eq_true, false_or, decide_eq_true_eq] at hc'
      rw [isNotExist_true_iff] at hc'
      rcases hex with hex | hex
      · exact hex hc'.2
      · rw [hc'.1] at hex
        cases hex
    refine ⟨hrej, main_of_reject env f w hrej, ?_, ?_⟩
    · rcases readFlags_cases R f with ⟨g, hg⟩ | ⟨s, u, -, -, heq⟩
      · rw [hg env w]
      · rw [heq env w]; rfl
    · rcases readFlags_cases R f with ⟨g, hg⟩ | ⟨s, u, -, -, heq⟩
      · left; rw [hg env w]
      · right; rw [heq env w]; rfl
  · intro hok env2 w2 h2
    obtain ⟨s, u, -, -, heq⟩ := readFlags_accept env2 f w2 h2
    rw [heq env w] at hok ⊢
    simp only [decide_eq_true_eq]
    rcases hok with hok | hok
    · exact Or.inl hok
    · exact Or.inr ((isNotExist_true_iff env _ _).2 hok)

/-- Witness of claim C4 amended: the default output `abc.pdf` exists and `-y`
is not set. -/
theorem readFlags_existing_output_witness :
    (readFlags plainEnv { noFlags with sid := "abc" }
      ⟨fun path => if path = "abc.pdf" then some [] else none, []⟩).1 = false :=
  ((readFlags_existing_output plainEnv { noFlags with sid := "abc" }
    ⟨fun path => if path = "abc.pdf" then some [] else none, []⟩).1
      (by decide) (Or.inl (by decide))).1

/-- Counterexample to claim C5 as stated: the body `[1, 2, 3]` breaks off after
one byte, `downloadPage` fails and leaves `abc-1.png` holding `[1]`; a later
`getResumeImages` finds the file, requests nothing and returns its path. -/
theorem downloadPage_truncated_cache_hit :
    (downloadPage truncatingEnv
        (resumeIMG "abc" 1 resumeExt "2021-01-01T00:00:00Z" resumeSize) (pageFile "abc" 1)
        emptyWorld).1 = some "unexpected EOF"
    ∧ truncatingEnv.httpGet 0 (resumeIMG "abc" 1 resumeExt "2021-01-01T00:00:00Z" resumeSize)
        = .response 200 "200 OK" [1, 2, 3] (some (1, "unexpected EOF"))
    ∧ (downloadPage truncatingEnv
        (resumeIMG "abc" 1 resumeExt "2021-01-01T00:00:00Z" resumeSize) (pageFile "abc" 1)
        emptyWorld).2.fs "abc-1.png" = some [1]
    ∧ (getResumeImages plainEnv "abc" 1
        (downloadPage truncatingEnv
          (resumeIMG "abc" 1 resumeExt "2021-01-01T00:00:00Z" resumeSize) (pageFile "abc" 1)
          emptyWorld).2).1 = ["abc-1.png"]
    ∧ (getResumeImages plainEnv "abc" 1
        (downloadPage truncatingEnv
          (resumeIMG "abc" 1 resumeExt "2021-01-01T00:00:00Z" resumeSize) (pageFile "abc" 1)
          emptyWorld).2).2.1 = none
    ∧ (getResumeImages plainEnv "abc" 1
        (downloadPage truncatingEnv
          (resumeIMG "abc" 1 resumeExt "2021-01-01T00:00:00Z" resumeSize) (pageFile "abc" 1)
          emptyWorld).2).2.2.fs "abc-1.png" = some [1]
    ∧ (getResumeImages plainEnv "abc" 1
        (downloadPage truncatingEnv
          (resumeIMG "abc" 1 resumeExt "2021-01-01T00:00:00Z" resumeSize) (pageFile "abc" 1)
          emptyWorld).2).2.2.trace
        = [.get (resumeIMG "abc" 1 resumeExt "2021-01-01T00:00:00Z" resumeSize),
            .create "abc-1.png", .copy "abc-1.png" [1], .stat "abc-1.png"] := by
  decide


/-- Claim C5, amended. Each way `downloadPage` can fail has its own effect.
A transport error, a status other than 200 and a file creation error leave the
filesystem unchanged. An error while the body is copied leaves the file at the
cache path holding the bytes copied before the error; every later
`getResumeImages` keeps those bytes and, when the file is the cache file of a
page, does not request that page. A failure of `downloadPage` is always one of
these four. -/
theorem downloadPage_failure {R : Type} (env : Env R) (u file : String) (w : World) :
    (∀ err, env.httpGet w.trace.length u = .error err →
      downloadPage env u file w = (some err, ⟨w.fs, w.trace ++ [.get u]⟩))
    ∧ (∀ code status body bodyErr,
        env.httpGet w.trace.length u = .response code status body bodyErr → code ≠ 200 →
        downloadPage env u file w = (some status, ⟨w.fs, w.trace ++ [.get u]⟩))
    ∧ (∀ status body bodyErr err,
        env.httpGet w.trace.length u = .response 200 status body bodyErr →
        env.create file w.fs = some err →
        downloadPage env u file w = (some err, ⟨w.fs, w.trace ++ [.get u, .create file]⟩))
    ∧ (∀ status body n e,
        env.httpGet w.trace.length u = .response 200 status body (some (n, e)) →
        env.create file w.fs = none →
        downloadPage env u file w
          = (some e, ⟨Function.update w.fs file (some (body.take n)),
              w.trace ++ [.get u, .create file, .copy file (body.take n)]⟩)
        ∧ ∀ (env2 : Env R) (s : String) (p : Int),
            (getResumeImages env2 s p (downloadPage env u file w).2).2.2.fs file
              = some (body.take n)
            ∧ ∀ k t, file = pageFile s k →
                Effect.get (resumeIMG s k resumeExt t resumeSize)
                  ∉ (getResumeImages env2 s p (downloadPage env u file w).2).2.2.trace.drop
                      (downloadPage env u file w).2.trace.length)
    ∧ (∀ e w', downloadPage env u file w = (some e, w') →
        env.httpGet w.trace.length u = .error e
        ∨ (∃ code body bodyErr,
            env.httpGet w.trace.length u = .response code e body bodyErr ∧ code ≠ 200)
        ∨ (∃ status body bodyErr,
            env.httpGet w.trace.length u = .response 200 status body bodyErr
            ∧ env.create file w.fs = some e)
        ∨ (∃ status body n,
            env.httpGet w.trace.length u = .response 200 status body (some (n, e))
            ∧ env.create file w.fs = none)) := by
  refine ⟨?_, ?_, ?_, ?_, ?_⟩
  · intro err hg
    unfold downloadPage
    simp [hg, World.record]
  · intro code status body bodyErr hg hc
    unfold downloadPage
    simp [hg, hc, World.record]
  · intro status body bodyErr err hg hcr
    unfold downloadPage
    simp [hg, hcr, World.record]
  · intro status body n e hg hcr
    have hd : downloadPage env u file w
        = (some e, ⟨Function.update w.fs file (some (body.take n)),
            w.trace ++ [.get u, .create file, .copy file (body.take n)]⟩) := by
      unfold downloadPage
      simp [hg, hcr, World.record]
    refine ⟨hd, fun env2 s p => ?_⟩
    rw [hd]
    refine ⟨getResumeImages_fs env2 s p _ file _ (by simp), fun k t hk hmem => ?_⟩
    unfold getResumeImages at hmem
    split_ifs at hmem
    · simp at hmem
    · obtain ⟨new, ht, hreq, -⟩ := loop_requests env2 s p.toNat 1 []
        ⟨Function.update w.fs file (some (body.take n)),
          w.trace ++ [.get u, .create file, .copy file (body.take n)]⟩
      rw [ht, List.drop_left] at hmem
      obtain ⟨k', t', -, -, hu, hmiss⟩ := hreq _ hmem
      rw [← resumeIMG_injective hu, ← hk] at hmiss
      have := ((isNotExist_true_iff env2 _ _).1 hmiss).2
      simp at this
  · intro e w' h
    unfold downloadPage at h
    cases hg : env.httpGet w.trace.length u with
    | error err =>
      simp only [hg] at h
      obtain rfl : err = e := by simpa using (Prod.mk.inj h).1
      exact Or.inl rfl
    | response code status body bodyErr =>
      simp only [hg] at h
      by_cases hc : code = 200
      · subst hc
        simp only [ne_eq, not_true_eq_false, if_false] at h
        cases hcr : env.create file w.fs with
        | some err =>
          simp only [hcr] at h
          obtain rfl : err = e := by simpa using (Prod.mk.inj h).1
          exact Or.inr (Or.inr (Or.inl ⟨status, body, bodyErr, rfl, rfl⟩))
        | none =>
          simp only [hcr] at h
          cases bodyErr with
          | none => simp at h
          | some ne =>
            obtain ⟨n, e'⟩ := ne
            simp only at h
            obtain rfl : e' = e := by simpa using (Prod.mk.inj h).1
            exact Or.inr (Or.inr (Or.inr ⟨status, body, n, rfl, rfl⟩))
      · simp only [ne_eq, hc, not_false_eq_true, if_true] at h
        obtain rfl : status = e := by simpa using (Prod.mk.inj h).1
        exact Or.inr (Or.inl ⟨code, body, bodyErr, rfl, hc⟩)

/-- Witness of claim C5 amended: the body `[1, 2, 3]` breaks off after one
byte and `abc-1.png` is left holding `[1]`. -/
theorem downloadPage_failure_witness :
    downloadPage truncatingEnv "u" "abc-1.png" emptyWorld
      = (some "unexpected EOF",
          ⟨Function.update emptyWorld.fs "abc-1.png" (some ([1, 2, 3].take 1)),
            emptyWorld.trace
              ++ [.get "u", .create "abc-1.png", .copy "abc-1.png" ([1, 2, 3].take 1)]⟩) :=
  ((downloadPage_failure truncatingEnv "u" "abc-1.png" emptyWorld).2.2.2.1
    "200 OK" [1, 2, 3] 1 "unexpected EOF" rfl rfl).1

/-- Counterexample to claim C6 as stated: no file exists at `abc-1.png`, but
`os.Stat` fails on that path with an error other than "not exist";
`getResumeImages` requests nothing and returns the path. -/
theorem getResumeImages_stat_error :
    emptyWorld.fs (pageFile "abc" 1) = none
    ∧ getResumeImages statErrEnv "abc" 1 emptyWorld
        = (["abc-1.png"], none, ⟨emptyWorld.fs, [.stat "abc-1.png"]⟩) := by
  refine ⟨by decide, ?_⟩
  rfl

/-- Claim C6, amended. In a run of `getResumeImages` for `N ≥ 1`, page `k`
among the pages the loop reaches (all of them when the run succeeds) is
requested exactly when `os.Stat` reports that no file exists at
`<sid>-<k>.png`: the call does not fail with another error and there is no
file. After a successful run, a second run in any world that kept the files,
with the same failures of `os.Stat`, requests nothing (its only effects are
the `N` cache checks), leaves the filesystem unchanged and returns the same
paths. -/
theorem getResumeImages_idempotent {R : Type} (env : Env R) (s : String) (N : Int)
    (w w' : World) (pages : List String) (err : Option String) (hN : 1 ≤ N)
    (hr : getResumeImages env s N w = (pages, err, w')) :
    (∃ new, w'.trace = w.trace ++ new
      ∧ ∀ k : Nat, 1 ≤ k → (k : Int) ≤ N → (err = none ∨ k ≤ pages.length + 1) →
          ((∃ t, Effect.get (resumeIMG s k resumeExt t resumeSize) ∈ new)
            ↔ (env.statErr (pageFile s k) = false ∧ w.fs (pageFile s k) = none)))
    ∧ (err = none →
        ∀ (env2 : Env R) (w2 : World), (∀ path, w'.fs path ≠ none → w2.fs path ≠ none) →
          (∀ path, env.statErr path = true → env2.statErr path = true) →
          getResumeImages env2 s N w2
            = (pages, none,
                ⟨w2.fs, w2.trace
                  ++ (List.range' 1 N.toNat).map (fun k => Effect.stat (pageFile s k))⟩)) := by
  have hloop := getResumeImages_of_pos env s N w hN
  rw [hloop] at hr
  constructor
  · obtain ⟨new, ht, hg, hs⟩ := loop_requests env s N.toNat 1 [] w
    rw [hr] at ht hs
    refine ⟨new, ht, fun k h1 h2 hv => ⟨?_, fun hk => hs k h1 (by omega) ?_
      ((isNotExist_true_iff env _ _).2 hk)⟩⟩
    · rintro ⟨t, hmem⟩
      obtain ⟨k', t', -, -, hu, hk'⟩ := hg _ hmem
      rw [resumeIMG_injective hu]
      exact (isNotExist_true_iff env _ _).1 hk'
    · exact hv.imp id (fun hv => by simp only [List.length_nil]; omega)
  · rintro rfl env2 w2 hkeep hstat
    have hok : (getResumeImagesLoop env s N.toNat 1 [] w).2.1 = none := by rw [hr]
    obtain ⟨m, -, hpg, hmn, -⟩ := loop_pages env s N.toNat 1 [] w
    have hexists := (loop_fs env s N.toNat 1 [] w).2 hok
    rw [hr] at hpg hexists
    rw [hmn hok] at hpg
    simp only [List.nil_append] at hpg
    have hhit : ∀ k, 1 ≤ k → k < 1 + N.toNat →
        isNotExist env2 (pageFile s k) w2.fs = false := by
      intro k h1 h2
      rcases (isNotExist_false_iff env _ _).1 (hexists k h1 h2) with h | h
      · exact (isNotExist_false_iff env2 _ _).2 (Or.inl (hstat _ h))
      · exact (isNotExist_false_iff env2 _ _).2 (Or.inr (hkeep _ h))
    rw [getResumeImages_of_pos env2 s N w2 hN, loop_all_hit env2 s N.toNat 1 [] w2 hhit, hpg]
    simp

/-- Witness of claim C6 amended: two pages, nothing on disk, no failure; the
second run starts in the world the first one left. -/
theorem getResumeImages_idempotent_witness :
    getResumeImages plainEnv "abc" 2 (getResumeImages plainEnv "abc" 2 emptyWorld).2.2
      = ((getResumeImages plainEnv "abc" 2 emptyWorld).1, none,
          ⟨(getResumeImages plainEnv "abc" 2 emptyWorld).2.2.fs,
            (getResumeImages plainEnv "abc" 2 emptyWorld).2.2.trace
              ++ (List.range' 1 (2 : Int).toNat).map
                  (fun k => Effect.stat (pageFile "abc" k))⟩) :=
  (getResumeImages_idempotent plainEnv "abc" 2 emptyWorld
    (getResumeImages plainEnv "abc" 2 emptyWorld).2.2
    (getResumeImages plainEnv "abc" 2 emptyWorld).1
    (getResumeImages plainEnv "abc" 2 emptyWorld).2.1
    (by decide) rfl).2 (by decide) plainEnv _ (fun _ h => h) (fun _ h => h)

/-- Claim C7. When `getResumeImages` for `p ≥ 1` returns an error, it is the
error of `downloadPage` on page `k = pages.length + 1 ≤ p`, called because
`os.Stat` reported its file as missing: exactly the pages `1..k` were checked,
every request before the failing one is for a page below `k`, and after the
failing request nothing is checked or requested. The files of the pages below
`k` are as they were before the failing download (each exists, unless
`os.Stat` fails on its path), every file that existed at the start is
unchanged, all effects are acquisition effects, and `main` ends with that
error in that world without any call on a PDF document (no composition, no
cleanup). -/
theorem getResumeImages_abort {R : Type} [Sub R] [Zero R] (env : Env R) (s : String)
    (p : Int) (w w' : World) (pages : List String) (e : String) (hp : 1 ≤ p)
    (hr : getResumeImages env s p w = (pages, some e, w')) :
    ((pages.length + 1 : Nat) : Int) ≤ p
    ∧ pages = (List.range' 1 pages.length).map (pageFile s)
    ∧ (∃ wk newk tail, wk.trace = w.trace ++ newk
        ∧ statPaths newk = (List.range' 1 (pages.length + 1)).map (pageFile s)
        ∧ (∀ u, Effect.get u ∈ newk → ∃ k t, 1 ≤ k ∧ k ≤ pages.length
            ∧ u = resumeIMG s k resumeExt t resumeSize)
        ∧ wk.fs (pageFile s (pages.length + 1)) = none
        ∧ env.statErr (pageFile s (pages.length + 1)) = false
        ∧ downloadPage env
            (resumeIMG s (pages.length + 1) resumeExt (env.now wk.trace.length) resumeSize)
            (pageFile s (pages.length + 1)) wk = (some e, w')
        ∧ w'.trace = wk.trace
            ++ .get (resumeIMG s (pages.length + 1) resumeExt (env.now wk.trace.length)
                resumeSize) :: tail
        ∧ statPaths tail = [] ∧ (∀ v, Effect.get v ∉ tail)
        ∧ (∀ j, 1 ≤ j → j ≤ pages.length →
            (wk.fs (pageFile s j) ≠ none ∨ env.statErr (pageFile s j) = true)
            ∧ w'.fs (pageFile s j) = wk.fs (pageFile s j)))
    ∧ (∃ new, w'.trace = w.trace ++ new ∧ ∀ x ∈ new, x.acquires = true)
    ∧ (∀ path c, w.fs path = some c → w'.fs path = some c)
    ∧ (∀ f w0 info, (readFlags env f w0).1 = true → (readFlags env f w0).2.1.sid = s →
        getMeta env s (readFlags env f w0).2.2 = (.ok info, w) →
        (info.Pages.length : Int) = p →
        main env f w0 = (.fatal e, w', [])) := by
  have hloop := getResumeImages_of_pos env s p w hp
  have he : (getResumeImagesLoop env s p.toNat 1 [] w).2.1 = some e := by
    rw [← hloop, hr]
  obtain ⟨m, wk, newk, hm, hpg, ht, hst, hg, hmiss, hd, hmono, hex⟩ :=
    loop_failing env s p.toNat 1 [] w e he
  rw [← hloop, hr] at hpg hd
  simp only [List.nil_append] at hpg
  have hlen : pages.length = m := by rw [hpg]; simp
  have hidx : 1 + m = pages.length + 1 := by omega
  rw [hidx] at hmiss hd
  obtain ⟨hnoerr, hnofile⟩ := (isNotExist_true_iff env _ _).1 hmiss
  obtain ⟨tail, htail, hng, hns, hfs⟩ := downloadPage_fail_world hd
  refine ⟨by omega, by rw [hlen]; exact hpg, ⟨wk, newk, tail, ht, by rw [hlen]; exact hst, ?_,
    hnofile, hnoerr, hd, htail, hns, hng, ?_⟩, ?_, ?_, ?_⟩
  · intro u hu
    obtain ⟨k, t, h1, h2, h3⟩ := hg u hu
    exact ⟨k, t, h1, by omega, h3⟩
  · intro j h1 h2
    have hj := (isNotExist_false_iff env _ _).1 (hex j h1 (by omega))
    refine ⟨hj.symm, hfs _ ?_⟩
    intro hc
    have := pageFile_injective hc
    omega
  · have := loop_acquires env s p.toNat 1 [] w
    rw [← hloop, hr] at this
    exact this
  · intro path c hc
    have := getResumeImages_fs env s p w path c hc
    rw [hr] at this
    exact this
  · intro f w0 info hf hs hmeta hN
    subst hs
    exact main_of_images_error env f w0 w w' info pages e hf hmeta (by rw [hN]; exact hr)

/-- Witness of claim C7: the download of the only page breaks off. -/
theorem getResumeImages_abort_witness :
    (((getResumeImages truncatingEnv "abc" 1 emptyWorld).1.length + 1 : Nat) : Int) ≤ 1 :=
  (getResumeImages_abort truncatingEnv "abc" 1 emptyWorld
    (getResumeImages truncatingEnv "abc" 1 emptyWorld).2.2
    (getResumeImages truncatingEnv "abc" 1 emptyWorld).1 "unexpected EOF"
    (by decide) (Prod.ext rfl (Prod.ext (by decide) rfl))).1


/-- Claim C8. Whenever the arguments resolve an identifier (they are accepted
in some environment and world), the output path after `readFlags` is
`sid ++ ".pdf"` for an empty name, the name itself when it ends with `.pdf` in
any letter case, and the name suffixed with `.pdf` otherwise. The result ends
with `.pdf` in some letter case, and the suffix rule of the program and the
rule of the specification both leave it unchanged. -/
theorem readFlags_outputPath {R : Type} (env env0 : Env R) (f : Flags) (w w0 : World)
    (h : (readFlags env0 f w0).1 = true) :
    (readFlags env f w).2.1.pdfFileName = outputPath (readFlags env f w).2.1.sid f.pdfFileName
    ∧ endsWithPdfAnyCase (readFlags env f w).2.1.pdfFileName = true
    ∧ (if rePDF (readFlags env f w).2.1.pdfFileName = false then
        (readFlags env f w).2.1.pdfFileName ++ ".pdf"
       else (readFlags env f w).2.1.pdfFileName) = (readFlags env f w).2.1.pdfFileName
    ∧ ∀ s, outputPath s (readFlags env f w).2.1.pdfFileName
        = (readFlags env f w).2.1.pdfFileName := by
  obtain ⟨s, u, -, -, heq⟩ := readFlags_accept env0 f w0 h
  rw [heq env w]
  have hr := rePDF_pdfNameOf s f.pdfFileName
  have hne : pdfNameOf s f.pdfFileName ≠ "" := by
    intro hc
    rw [hc] at hr
    revert hr
    decide
  refine ⟨pdfNameOf_eq s _, by rw [← rePDF_eq]; exact hr, by simp [hr], fun s' => ?_⟩
  simp only [outputPath, hne, if_false, ← rePDF_eq, hr, if_true]

/-- Witness of claim C8: the name `cv.PDF` is kept. -/
theorem readFlags_outputPath_witness :
    (readFlags plainEnv { noFlags with sid := "abc123", pdfFileName := "cv.PDF" }
      emptyWorld).2.1.pdfFileName = "cv.PDF" :=
  (readFlags_outputPath plainEnv plainEnv
    { noFlags with sid := "abc123", pdfFileName := "cv.PDF" } emptyWorld emptyWorld
    (by decide)).1.trans (by decide)

/-- Counterexample to claim C9 as stated: the identifier `12345` matches the
alphanumeric pattern, but as positional argument it is rejected by the
digits-only test of `extractArg`. -/
theorem readFlags_digits_positional :
    reSID "12345" = true
    ∧ (readFlags plainEnv { noFlags with arg0 := "12345" } emptyWorld).1 = false
    ∧ (readFlags plainEnv { noFlags with arg0 := "12345" } emptyWorld).2.1.sid = ""
    ∧ (readFlags plainEnv { noFlags with sid := "12345" } emptyWorld).1 = true := by
  decide

/-- Claim C9, amended. Outside version mode, an identifier `s` matching the
alphanumeric pattern is resolved as the document identifier when it is the
positional argument and not digits-only, or when it is the `-sid` flag and the
positional argument is absent or is neither digits-only, nor an application
URL, nor itself alphanumeric. The URL becomes `https://resume.io/r/` followed
by `s`, whatever URL was given; that URL matches the share-URL pattern with
`s` as its submatch, and `readFlags` accepts unless `-y` is not set and
`os.Stat` does not report the output path as missing. -/
theorem readFlags_identifier {R : Type} (env : Env R) (f : Flags) (w : World) (s : String)
    (hs : reSID s = true) (hv : f.showVersion = false)
    (hsrc : (f.arg0 = s ∧ reID s = false)
      ∨ (f.sid = s ∧ (f.arg0 = "" ∨
          (reID f.arg0 = false ∧ reIDURL f.arg0 = false ∧ reSID f.arg0 = false)))) :
    (readFlags env f w).2.1.sid = s
    ∧ (readFlags env f w).2.1.url = resumePage s
    ∧ reURL (resumePage s) = true
    ∧ reURLFind (resumePage s) = some s
    ∧ ((readFlags env f w).1 = true ↔
        (f.overWrite = true
          ∨ isNotExist env (readFlags env f w).2.1.pdfFileName w.fs = true)) := by
  obtain ⟨he, hsid⟩ := extractArg_of_source f s hs hsrc
  have hne : (extractArg f).2.sid ≠ "" := hsid ▸ reSID_ne_empty hs
  have heq := readFlags_of_sid env f hv he hne (hsid ▸ hs) w
  rw [heq, hsid]
  have hf := reURLFind_resumePage hs
  exact ⟨rfl, rfl, by simp [reURL, hf], hf, by simp⟩

/-- Witness of claim C9 amended: a positional identifier replaces the URL
given by flag. -/
theorem readFlags_identifier_witness :
    (readFlags plainEnv { noFlags with url := "https://resume.io/r/other", arg0 := "abc123" }
      emptyWorld).2.1.url = resumePage "abc123" :=
  (readFlags_identifier plainEnv
    { noFlags with url := "https://resume.io/r/other", arg0 := "abc123" }
    emptyWorld "abc123" (by decide) (by decide) (by decide)).2.1

/-- Claim C10. Whenever `readFlags` returns true, the resolved identifier is
non-empty and alphanumeric, the resolved URL starts with
`https://resume.io/r/` followed by the identifier, every cache file name and
the default output name have no path separator and are not `..`, and `main`
does not exit with the misuse status. -/
theorem readFlags_true_sid {R : Type} [Sub R] [Zero R] (env : Env R) (f : Flags) (w : World)
    (h : (readFlags env f w).1 = true) :
    (readFlags env f w).2.1.sid ≠ ""
    ∧ (∀ c ∈ (readFlags env f w).2.1.sid.data, c.isAlphanum = true)
    ∧ (∃ rest, (readFlags env f w).2.1.url.data
        = (resumePage (readFlags env f w).2.1.sid).data ++ rest)
    ∧ (∀ k, safeFileName (pageFile (readFlags env f w).2.1.sid k) = true)
    ∧ safeFileName ((readFlags env f w).2.1.sid ++ ".pdf") = true
    ∧ (main env f w).1 ≠ Exit.code exitCodeMisuseArgs := by
  have hm : (readFlags env f w).2.1.sid ≠ "" → (main env f w).1 ≠ Exit.code exitCodeMisuseArgs :=
    fun hs => main_not_misuse env f w h hs _
  obtain ⟨s, u, hs, hu, heq⟩ := readFlags_accept env f w h
  rw [heq env w] at hm ⊢
  exact ⟨reSID_ne_empty hs, ((reSID_iff s).1 hs).2, hu, safeFileName_pageFile hs,
    safeFileName_default hs, hm (reSID_ne_empty hs)⟩


/-- Witness of claim C10: the identifier comes from a share URL. -/
theorem readFlags_true_sid_witness :
    (readFlags plainEnv { noFlags with url := "https://resume.io/r/abc123?x=1" }
      emptyWorld).2.1.sid ≠ "" :=
  (readFlags_true_sid plainEnv { noFlags with url := "https://resume.io/r/abc123?x=1" }
    emptyWorld (by decide)).1

end Resumeio2pdf
